import Mathlib

/-!
Verification of the BlackbirdSportsUploader BLE protocol engine
(`src/blackbird_sports_uploader/bb16.py`) against its specification.

The embedding is a shallow one: byte strings are `List Nat` (each element a
byte value), Python classes become inductive types, fallible code returns
`Except`, and the stateful `PacketStream` object becomes explicit state
passing.  String-typed protobuf fields are modelled as their UTF-8 byte
sequences.
-/

set_option maxRecDepth 100000

namespace BB16

/-- Enum `CmdType` of bb16.py: Get = 0, Post = 1, Push = 2. -/
inductive CmdType
  | Get
  | Post
  | Push
deriving DecidableEq, Repr

/-- Numeric value of a `CmdType` member. -/
def CmdType.val : CmdType → Nat
  | .Get => 0
  | .Post => 1
  | .Push => 2

/-- Decode `CmdType(n)`; `none` models Python's `ValueError` for an
undefined enum value. -/
def CmdType.fromVal : Nat → Option CmdType
  | 0 => some .Get
  | 1 => some .Post
  | 2 => some .Push
  | _ => none

/-- Enum `TransType` of bb16.py: Default = 0, Response = 1, Ack = 2. -/
inductive TransType
  | Default
  | Response
  | Ack
deriving DecidableEq, Repr

/-- Numeric value of a `TransType` member. -/
def TransType.val : TransType → Nat
  | .Default => 0
  | .Response => 1
  | .Ack => 2

/-- Decode `TransType(n)`; `none` models Python's `ValueError`. -/
def TransType.fromVal : Nat → Option TransType
  | 0 => some .Default
  | 1 => some .Response
  | 2 => some .Ack
  | _ => none

/-- Enum `Oid` of bb16.py, all 24 members. -/
inductive Oid
  | Invalid
  | CheckPower
  | GetCustomer
  | GetDeviceInfo
  | GetFile
  | GetFileStatus
  | GetFunction
  | GetHistory
  | GetStorage
  | GetSupport
  | OffDevice
  | PostDeleteFile
  | PostFileInfo
  | PostReset
  | PostStopFile
  | PostUtcInfo
  | ReceiveFile
  | ResultPower
  | RunInfo
  | RunStart
  | SaveDevice
  | ScanDevice
  | TestCmd
  | Unknown
deriving DecidableEq, Repr

/-- Numeric value of an `Oid` member (as in the Python enum). -/
def Oid.val : Oid → Nat
  | .Invalid => 0x00
  | .CheckPower => 0x40
  | .GetCustomer => 0x34
  | .GetDeviceInfo => 0x01
  | .GetFile => 0x29
  | .GetFileStatus => 0x32
  | .GetFunction => 0x04
  | .GetHistory => 0x15
  | .GetStorage => 0x33
  | .GetSupport => 0x05
  | .OffDevice => 0x3F
  | .PostDeleteFile => 0x2A
  | .PostFileInfo => 0x2B
  | .PostReset => 0x03
  | .PostStopFile => 0x2D
  | .PostUtcInfo => 0x02
  | .ReceiveFile => 0x2C
  | .ResultPower => 0x41
  | .RunInfo => 0x2710
  | .RunStart => 0x2711
  | .SaveDevice => 0x3E
  | .ScanDevice => 0x3D
  | .TestCmd => 0xFF
  | .Unknown => 0xFFFF

/-- Decode `Oid(n)`; `none` models Python's `ValueError`. -/
def Oid.fromVal : Nat → Option Oid
  | 0x00 => some .Invalid
  | 0x40 => some .CheckPower
  | 0x34 => some .GetCustomer
  | 0x01 => some .GetDeviceInfo
  | 0x29 => some .GetFile
  | 0x32 => some .GetFileStatus
  | 0x04 => some .GetFunction
  | 0x15 => some .GetHistory
  | 0x33 => some .GetStorage
  | 0x05 => some .GetSupport
  | 0x3F => some .OffDevice
  | 0x2A => some .PostDeleteFile
  | 0x2B => some .PostFileInfo
  | 0x03 => some .PostReset
  | 0x2D => some .PostStopFile
  | 0x02 => some .PostUtcInfo
  | 0x2C => some .ReceiveFile
  | 0x41 => some .ResultPower
  | 0x2710 => some .RunInfo
  | 0x2711 => some .RunStart
  | 0x3E => some .SaveDevice
  | 0x3D => some .ScanDevice
  | 0xFF => some .TestCmd
  | 0xFFFF => some .Unknown
  | _ => none

/-- Enum `DevType`: HANDWATCH = 0, HUB = 1, BIKE_COMPUTER = 2. -/
inductive DevType
  | DEV_TYPE_HANDWATCH
  | DEV_TYPE_HUB
  | DEV_TYPE_BIKE_COMPUTER
deriving DecidableEq, Repr

/-- Numeric value of a `DevType` member. -/
def DevType.val : DevType → Nat
  | .DEV_TYPE_HANDWATCH => 0
  | .DEV_TYPE_HUB => 1
  | .DEV_TYPE_BIKE_COMPUTER => 2

/-- Decode `DevType(n)`; `none` models Python's `ValueError`. -/
def DevType.fromVal : Nat → Option DevType
  | 0 => some .DEV_TYPE_HANDWATCH
  | 1 => some .DEV_TYPE_HUB
  | 2 => some .DEV_TYPE_BIKE_COMPUTER
  | _ => none

/-- Enum `FileTransSize`: 128 = 0, 256 = 1, 512 = 2, 1024 = 3. -/
inductive FileTransSize
  | FILE_TRANS_SIZE_128
  | FILE_TRANS_SIZE_256
  | FILE_TRANS_SIZE_512
  | FILE_TRANS_SIZE_1024
deriving DecidableEq, Repr

/-- Numeric value of a `FileTransSize` member. -/
def FileTransSize.val : FileTransSize → Nat
  | .FILE_TRANS_SIZE_128 => 0
  | .FILE_TRANS_SIZE_256 => 1
  | .FILE_TRANS_SIZE_512 => 2
  | .FILE_TRANS_SIZE_1024 => 3

/-- Decode `FileTransSize(n)`; `none` models Python's `ValueError`. -/
def FileTransSize.fromVal : Nat → Option FileTransSize
  | 0 => some .FILE_TRANS_SIZE_128
  | 1 => some .FILE_TRANS_SIZE_256
  | 2 => some .FILE_TRANS_SIZE_512
  | 3 => some .FILE_TRANS_SIZE_1024
  | _ => none

/-- Enum `ReceiveFileFlag`: First = 0, Middle = 1, Last = 2, Single = 3. -/
inductive ReceiveFileFlag
  | First
  | Middle
  | Last
  | Single
deriving DecidableEq, Repr

/-- Numeric value of a `ReceiveFileFlag` member. -/
def ReceiveFileFlag.val : ReceiveFileFlag → Nat
  | .First => 0
  | .Middle => 1
  | .Last => 2
  | .Single => 3

/-- Decode `ReceiveFileFlag(n)`; `none` models Python's `ValueError`. -/
def ReceiveFileFlag.fromVal : Nat → Option ReceiveFileFlag
  | 0 => some .First
  | 1 => some .Middle
  | 2 => some .Last
  | 3 => some .Single
  | _ => none

/-- `Message.escape`: each byte in {0x7D, 0x7E, 0x7F} becomes the pair
`0x7D, b - 0x7D + 1`; every other byte is copied. -/
def escape : List Nat → List Nat
  | [] => []
  | b :: rest =>
      if b = 0x7D ∨ b = 0x7E ∨ b = 0x7F then 0x7D :: (b - 0x7D + 1) :: escape rest
      else b :: escape rest

/-- Errors raised (as `AssertionError` / `ValueError` / `IndexError` /
`OverflowError`) by the decode path of bb16.py; one constructor per
distinct failure site. -/
inductive DecodeErr
  | badStart
  | badEnd
  | danglingEscape
  | badEscapeVal
  | crcMismatch
  | tooShort
  | lenFieldMismatch
  | badCmdType
  | badTransType
  | ackBadLen
  | nonAckTooShort
  | badOid
  | unknownPacketType
  | badPayload
deriving DecidableEq, Repr

/-- `Message.unescape`: inverse of `escape`.  After a 0x7D the next byte must
exist and lie in 1..3 (Python `assert`s), and decodes to `x + 0x7D - 1`. -/
def unescape : List Nat → Except DecodeErr (List Nat)
  | [] => .ok []
  | b :: rest =>
      if b = 0x7D then
        match rest with
        | [] => .error .danglingEscape
        | x :: rest' =>
            if x = 0 then .error .badEscapeVal
            else if 4 ≤ x then .error .badEscapeVal
            else (unescape rest').map (fun tl => (x + 0x7D - 1) :: tl)
      else (unescape rest).map (fun tl => b :: tl)

theorem unescape_escape (b : List Nat) : unescape (escape b) = .ok b := by
  induction b with
  | nil => rfl
  | cons x rest ih =>
      by_cases hx : x = 0x7D ∨ x = 0x7E ∨ x = 0x7F
      · rcases hx with h | h | h <;> subst h <;>
          simp [escape, unescape, ih, Except.map]
      · simp only [escape, if_neg hx]
        have hne : x ≠ 0x7D := by tauto
        rw [unescape.eq_def]
        simp [hne, ih, Except.map]

/-- One shift-xor round of CRC-CCITT (polynomial 0x1021), masked to 16 bits. -/
def crcRound (c : Nat) : Nat :=
  if c &&& 0x8000 ≠ 0 then ((c <<< 1) ^^^ 0x1021) &&& 0xFFFF else (c <<< 1) &&& 0xFFFF

/-- Feed one byte into the CRC state: xor into the high byte, then eight rounds. -/
def crcByte (c b : Nat) : Nat :=
  crcRound (crcRound (crcRound (crcRound (crcRound (crcRound (crcRound (crcRound
    (c ^^^ (b <<< 8)))))))))

/-- `binascii.crc_hqx(data, c)`: CRC-CCITT over `data` with initial value `c`. -/
def crc_hqx (data : List Nat) (c : Nat) : Nat := data.foldl crcByte (c &&& 0xFFFF)

theorem crcRound_le (c : Nat) : crcRound c ≤ 0xFFFF := by
  unfold crcRound
  split <;> exact Nat.and_le_right

theorem crcByte_le (c b : Nat) : crcByte c b ≤ 0xFFFF := crcRound_le _

theorem foldl_crcByte_le (data : List Nat) (x : Nat) (hx : x ≤ 0xFFFF) :
    data.foldl crcByte x ≤ 0xFFFF := by
  induction data generalizing x with
  | nil => exact hx
  | cons b rest ih => exact ih (crcByte x b) (crcByte_le x b)

theorem crc_hqx_le (data : List Nat) (c : Nat) : crc_hqx data c ≤ 0xFFFF :=
  foldl_crcByte_le data (c &&& 0xFFFF) Nat.and_le_right

/-- Errors raised by the encode path: Python `int.to_bytes` raises
`OverflowError` when the value does not fit the requested width. -/
inductive EncodeErr
  | overflow
deriving DecidableEq, Repr

/-- `n.to_bytes(2, "big")`. -/
def toBytes2 (n : Nat) : Except EncodeErr (List Nat) :=
  if n < 65536 then .ok [n / 256, n % 256] else .error .overflow

/-- `n.to_bytes(1, "big")`. -/
def toBytes1 (n : Nat) : Except EncodeErr (List Nat) :=
  if n < 256 then .ok [n] else .error .overflow

/-- `int.from_bytes(bs, "big")`. -/
def fromBytesBE (bs : List Nat) : Nat := bs.foldl (fun a b => a * 256 + b) 0

theorem fromBytesBE_pair (hi lo : Nat) : fromBytesBE [hi, lo] = hi * 256 + lo := by
  simp [fromBytesBE]

/-- Fuelled worker for the base-128 varint encoder (fuel ≥ value suffices). -/
def varintEncF : Nat → Nat → List Nat
  | 0, n => [n % 128]
  | f + 1, n => if n < 128 then [n] else (n % 128 + 128) :: varintEncF f (n / 128)

/-- Protobuf base-128 varint encoding: little-endian 7-bit groups, high bit
set on every byte but the last. -/
def varintEnc (n : Nat) : List Nat := varintEncF n n

/-- Protobuf varint decoder; returns the value and the unconsumed tail. -/
def readVarint : List Nat → Option (Nat × List Nat)
  | [] => none
  | b :: rest =>
      if b < 128 then some (b, rest)
      else (readVarint rest).map (fun p => (b % 128 + 128 * p.1, p.2))

theorem readVarint_varintEncF (f : Nat) :
    ∀ n rest, n ≤ f → readVarint (varintEncF f n ++ rest) = some (n, rest) := by
  induction f with
  | zero =>
      intro n rest hn
      have : n = 0 := Nat.le_zero.mp hn
      subst this
      simp [varintEncF, readVarint]
  | succ f ih =>
      intro n rest hn
      by_cases h : n < 128
      · simp [varintEncF, h, readVarint]
      · push_neg at h
        have h1 : n / 128 < n := Nat.div_lt_self (by omega) (by norm_num)
        have hdiv : n / 128 ≤ f := by omega
        rw [show varintEncF (f + 1) n = (n % 128 + 128) :: varintEncF f (n / 128) by
          rw [varintEncF]; rw [if_neg (by omega)]]
        rw [List.cons_append]
        simp only [readVarint, if_neg (show ¬(n % 128 + 128 < 128) by omega),
          ih (n / 128) rest hdiv, Option.map_some']
        have : (n % 128 + 128) % 128 + 128 * (n / 128) = n := by omega
        rw [this]

theorem readVarint_varintEnc (n : Nat) (rest : List Nat) :
    readVarint (varintEnc n ++ rest) = some (n, rest) :=
  readVarint_varintEncF n n rest (Nat.le_refl n)

theorem readVarint_length :
    ∀ l v r, readVarint l = some (v, r) → r.length < l.length := by
  intro l
  induction l with
  | nil => intro v r h; simp [readVarint] at h
  | cons b rest ih =>
      intro v r h
      simp only [readVarint] at h
      by_cases hb : b < 128
      · simp only [if_pos hb] at h
        cases h
        simp
      · simp only [if_neg hb] at h
        cases hr : readVarint rest with
        | none => rw [hr] at h; cases h
        | some p =>
            rw [hr, Option.map_some'] at h
            cases h
            have := ih p.1 p.2 hr
            simp
            omega

/-- pure_protobuf's `ZigZagInt` encoding of a Python int. -/
def zigzagEnc (z : Int) : Nat := if 0 ≤ z then (2 * z).toNat else (-2 * z - 1).toNat

/-- Inverse zig-zag: even values are non-negative, odd values negative. -/
def zigzagDec (u : Nat) : Int :=
  if u % 2 = 0 then ((u / 2 : Nat) : Int) else -((u / 2 : Nat) : Int) - 1

theorem zigzagDec_enc (z : Int) : zigzagDec (zigzagEnc z) = z := by
  unfold zigzagEnc zigzagDec
  by_cases hz : 0 ≤ z
  · simp only [if_pos hz]
    rw [if_pos (by omega)]
    omega
  · simp only [if_neg hz]
    rw [if_neg (by omega)]
    omega

/-- A decoded protobuf field value: varint (wire type 0) or length-delimited
(wire type 2) — the only wire types these messages use. -/
inductive PbVal
  | vint (n : Nat)
  | lenDelim (bs : List Nat)
deriving DecidableEq, Repr

/-- Fuelled worker splitting a protobuf payload into `(field number, value)`
pairs; fuel ≥ input length suffices. -/
def pbParseF : Nat → List Nat → Option (List (Nat × PbVal))
  | _, [] => some []
  | 0, _ :: _ => none
  | f + 1, b :: tl =>
      (readVarint (b :: tl)).bind (fun p =>
        if p.1 % 8 = 0 then
          (readVarint p.2).bind (fun q =>
            (pbParseF f q.2).map (fun fs => (p.1 / 8, PbVal.vint q.1) :: fs))
        else if p.1 % 8 = 2 then
          (readVarint p.2).bind (fun q =>
            if q.1 ≤ q.2.length then
              (pbParseF f (q.2.drop q.1)).map
                (fun fs => (p.1 / 8, PbVal.lenDelim (q.2.take q.1)) :: fs)
            else none)
        else none)

/-- Split a protobuf payload into its fields, as pure_protobuf's reader does. -/
def pbParse (l : List Nat) : Option (List (Nat × PbVal)) := pbParseF l.length l

theorem pbParseF_congr :
    ∀ f1 f2 l, l.length ≤ f1 → l.length ≤ f2 → pbParseF f1 l = pbParseF f2 l := by
  intro f1
  induction f1 with
  | zero =>
      intro f2 l h1 _
      have : l = [] := List.eq_nil_of_length_eq_zero (Nat.le_zero.mp h1)
      subst this
      cases f2 <;> rfl
  | succ f ih =>
      intro f2 l h1 h2
      cases l with
      | nil => cases f2 <;> rfl
      | cons b tl =>
          cases f2 with
          | zero => simp at h2
          | succ f2' =>
              rw [pbParseF.eq_def]
              rw [pbParseF.eq_def (f2' + 1)]
              simp only
              have hc : (b :: tl).length = tl.length + 1 := by simp
              cases hv : readVarint (b :: tl) with
              | none => rfl
              | some p =>
                  have hr1 := readVarint_length _ _ _ hv
                  rw [hc] at hr1
                  rw [hc] at h1
                  rw [hc] at h2
                  simp only [Option.some_bind]
                  by_cases h0 : p.1 % 8 = 0
                  · rw [if_pos h0, if_pos h0]
                    cases hv2 : readVarint p.2 with
                    | none => rfl
                    | some q =>
                        have hr2 := readVarint_length _ _ _ hv2
                        simp only [Option.some_bind]
                        rw [ih f2' q.2 (by omega) (by omega)]
                  · rw [if_neg h0, if_neg h0]
                    by_cases h2' : p.1 % 8 = 2
                    · rw [if_pos h2', if_pos h2']
                      cases hv2 : readVarint p.2 with
                      | none => rfl
                      | some q =>
                          have hr2 := readVarint_length _ _ _ hv2
                          simp only [Option.some_bind]
                          by_cases hle : q.1 ≤ q.2.length
                          · rw [if_pos hle, if_pos hle]
                            have hd : (q.2.drop q.1).length = q.2.length - q.1 := by
                              simp
                            rw [ih f2' (q.2.drop q.1) (by omega) (by omega)]
                          · rw [if_neg hle, if_neg hle]
                    · rw [if_neg h2', if_neg h2']

theorem pbParseF_eq_pbParse (f : Nat) (l : List Nat) (h : l.length ≤ f) :
    pbParseF f l = pbParse l :=
  pbParseF_congr f l.length l h (Nat.le_refl _)

/-- Serialized varint-typed field `n` (wire type 0), single-byte tag. -/
def pbFieldVint (n v : Nat) : List Nat := (n * 8) :: varintEnc v

/-- Serialized length-delimited field `n` (wire type 2), single-byte tag. -/
def pbFieldLen (n : Nat) (bs : List Nat) : List Nat :=
  (n * 8 + 2) :: (varintEnc bs.length ++ bs)

theorem pbParse_vintField (n v : Nat) (hn : n ≤ 15) (rest : List Nat) :
    pbParse (pbFieldVint n v ++ rest) =
      (pbParse rest).map (fun fs => (n, PbVal.vint v) :: fs) := by
  rw [pbFieldVint, List.cons_append, pbParse, List.length_cons, pbParseF]
  simp only [readVarint, if_pos (show n * 8 < 128 by omega), Option.some_bind,
    Nat.mul_mod_left, if_pos rfl, readVarint_varintEnc, Option.some_bind,
    Nat.mul_div_cancel n (show 0 < 8 by norm_num), if_true, eq_self_iff_true]
  rw [pbParseF_eq_pbParse _ rest (by simp)]

theorem pbParse_lenField (n : Nat) (bs : List Nat) (hn : n ≤ 15) (rest : List Nat) :
    pbParse (pbFieldLen n bs ++ rest) =
      (pbParse rest).map (fun fs => (n, PbVal.lenDelim bs) :: fs) := by
  rw [pbFieldLen, List.cons_append, List.append_assoc, pbParse, List.length_cons,
    pbParseF]
  simp only [readVarint, if_pos (show n * 8 + 2 < 128 by omega), Option.some_bind,
    if_neg (show ¬ ((n * 8 + 2) % 8 = 0) by omega),
    if_pos (show (n * 8 + 2) % 8 = 2 by omega), readVarint_varintEnc,
    Option.some_bind]
  rw [if_pos (show bs.length ≤ (bs ++ rest).length by simp)]
  rw [List.take_left bs rest, List.drop_left bs rest]
  rw [pbParseF_eq_pbParse _ rest (by simp; omega)]
  rw [show (n * 8 + 2) / 8 = n by omega]

/-- Last occurrence of field `n` (later occurrences overwrite earlier ones,
as in protobuf merge semantics). -/
def pbLast (fs : List (Nat × PbVal)) (n : Nat) : Option PbVal :=
  (fs.filter (fun p => p.1 == n)).getLast?.map Prod.snd

/-- Field `n` as a varint, if present with that wire type. -/
def pbVintAt (fs : List (Nat × PbVal)) (n : Nat) : Option Nat :=
  match pbLast fs n with
  | some (.vint v) => some v
  | _ => none

/-- Field `n` as length-delimited bytes, if present with that wire type. -/
def pbBytesAt (fs : List (Nat × PbVal)) (n : Nat) : Option (List Nat) :=
  match pbLast fs n with
  | some (.lenDelim bs) => some bs
  | _ => none

/-- Fields of `GetDeviceInfoResponse._ProtoDef` (strings as UTF-8 bytes). -/
structure DeviceInfoFields where
  dev_type : Nat
  file_trans_size : Nat
  hardware_version : List Nat
  software_version : List Nat
  serial_number : List Nat
  protocol_version : List Nat
  ble_mtu : Nat
deriving DecidableEq, Repr

/-- `GetDeviceInfoResponse._ProtoDef.loads`: fields 1-7; field 2 defaults to
`FILE_TRANS_SIZE_512.value` (= 2) when absent; the rest are required. -/
def deviceInfoLoads (payload : List Nat) : Option DeviceInfoFields := do
  let fs ← pbParse payload
  let dev ← pbVintAt fs 1
  let fts := (pbVintAt fs 2).getD FileTransSize.FILE_TRANS_SIZE_512.val
  let hw ← pbBytesAt fs 3
  let sw ← pbBytesAt fs 4
  let sn ← pbBytesAt fs 5
  let pv ← pbBytesAt fs 6
  let mtu ← pbVintAt fs 7
  pure ⟨dev, fts, hw, sw, sn, pv, mtu⟩

/-- `GetDeviceInfoResponse._ProtoDef(...).dumps()`: fields 1-7 in order. -/
def deviceInfoDumps (x : DeviceInfoFields) : List Nat :=
  pbFieldVint 1 x.dev_type ++ pbFieldVint 2 x.file_trans_size ++
    pbFieldLen 3 x.hardware_version ++ pbFieldLen 4 x.software_version ++
    pbFieldLen 5 x.serial_number ++ pbFieldLen 6 x.protocol_version ++
    pbFieldVint 7 x.ble_mtu

/-- `GetFile._ProtoDef.loads`: required string field 1. -/
def getFileLoads (payload : List Nat) : Option (List Nat) := do
  let fs ← pbParse payload
  pbBytesAt fs 1

/-- `GetFile._ProtoDef(...).dumps()`. -/
def getFileDumps (filename : List Nat) : List Nat := pbFieldLen 1 filename

/-- `GetFileResponse._ProtoDef.loads`: bool field 1, default `False`. -/
def getFileRespLoads (payload : List Nat) : Option Bool := do
  let fs ← pbParse payload
  match pbVintAt fs 1 with
  | none =>
      match pbLast fs 1 with
      | none => some false
      | _ => none
  | some 0 => some false
  | some 1 => some true
  | some _ => none

/-- `GetFileResponse._ProtoDef(...).dumps()`. -/
def getFileRespDumps (exist : Bool) : List Nat :=
  pbFieldVint 1 (if exist then 1 else 0)

/-- `FileInfo._ProtoDef.loads`: string field 1, zig-zag int field 2. -/
def fileInfoLoads (payload : List Nat) : Option (List Nat × Int) := do
  let fs ← pbParse payload
  let fname ← pbBytesAt fs 1
  let u ← pbVintAt fs 2
  pure (fname, zigzagDec u)

/-- `FileInfo._ProtoDef(...).dumps()`. -/
def fileInfoDumps (filename : List Nat) (size : Int) : List Nat :=
  pbFieldLen 1 filename ++ pbFieldVint 2 (zigzagEnc size)

/-- The registered message variants of bb16.py, one constructor per concrete
`Message` subclass, each with the payload fields that class declares.
String fields carry UTF-8 bytes. -/
inductive Msg
  | getAck (sid : Nat)
  | pushAck (sid : Nat)
  | getDeviceInfoRequest (sid : Nat)
  | getDeviceInfoResponse (sid : Nat) (dev_type : DevType)
      (file_trans_size : FileTransSize)
      (hardware_version software_version serial_number protocol_version : List Nat)
      (ble_mtu : Nat)
  | getFile (sid : Nat) (filename : List Nat)
  | getFileResponse (sid : Nat) (exist : Bool)
  | getFileStatus (sid : Nat)
  | getFileStatusResponse (sid : Nat)
  | fileInfo (sid : Nat) (filename : List Nat) (size : Int)
  | receiveFile (sid : Nat) (seq : Nat) (flag : ReceiveFileFlag) (data : List Nat)
deriving DecidableEq, Repr

/-- The `sid` field common to all messages. -/
def Msg.sid : Msg → Nat
  | .getAck s => s
  | .pushAck s => s
  | .getDeviceInfoRequest s => s
  | .getDeviceInfoResponse s _ _ _ _ _ _ _ => s
  | .getFile s _ => s
  | .getFileResponse s _ => s
  | .getFileStatus s => s
  | .getFileStatusResponse s => s
  | .fileInfo s _ _ => s
  | .receiveFile s _ _ _ => s

/-- `cmd_type` registered for each subclass. -/
def Msg.cmdType : Msg → CmdType
  | .getAck _ => .Push
  | .pushAck _ => .Get
  | .getDeviceInfoRequest _ => .Get
  | .getDeviceInfoResponse _ _ _ _ _ _ _ _ => .Get
  | .getFile _ _ => .Get
  | .getFileResponse _ _ => .Get
  | .getFileStatus _ => .Get
  | .getFileStatusResponse _ => .Get
  | .fileInfo _ _ _ => .Push
  | .receiveFile _ _ _ _ => .Push

/-- `trans_type` registered for each subclass. -/
def Msg.transType : Msg → TransType
  | .getAck _ => .Ack
  | .pushAck _ => .Ack
  | .getDeviceInfoRequest _ => .Default
  | .getDeviceInfoResponse _ _ _ _ _ _ _ _ => .Response
  | .getFile _ _ => .Default
  | .getFileResponse _ _ => .Response
  | .getFileStatus _ => .Default
  | .getFileStatusResponse _ => .Response
  | .fileInfo _ _ _ => .Default
  | .receiveFile _ _ _ _ => .Default

/-- `oid` registered for each subclass. -/
def Msg.oid : Msg → Oid
  | .getAck _ => .Invalid
  | .pushAck _ => .Invalid
  | .getDeviceInfoRequest _ => .GetDeviceInfo
  | .getDeviceInfoResponse _ _ _ _ _ _ _ _ => .GetDeviceInfo
  | .getFile _ _ => .GetFile
  | .getFileResponse _ _ => .GetFile
  | .getFileStatus _ => .GetFileStatus
  | .getFileStatusResponse _ => .GetFileStatus
  | .fileInfo _ _ _ => .PostFileInfo
  | .receiveFile _ _ _ _ => .ReceiveFile

/-- `export_payload` of each subclass (the base class returns `b""`).
`ReceiveFile` uses `seq.to_bytes(1, "big")`, which can raise. -/
def Msg.export_payload : Msg → Except EncodeErr (List Nat)
  | .getAck _ => .ok []
  | .pushAck _ => .ok []
  | .getDeviceInfoRequest _ => .ok []
  | .getDeviceInfoResponse _ dt fts hw sw sn pv mtu =>
      .ok (deviceInfoDumps ⟨dt.val, fts.val, hw, sw, sn, pv, mtu⟩)
  | .getFile _ fn => .ok (getFileDumps fn)
  | .getFileResponse _ e => .ok (getFileRespDumps e)
  | .getFileStatus _ => .ok []
  | .getFileStatusResponse _ => .ok []
  | .fileInfo _ fn sz => .ok (fileInfoDumps fn sz)
  | .receiveFile _ sq fl d =>
      match toBytes1 sq with
      | .error e => .error e
      | .ok sb => .ok (sb ++ fl.val :: d)

/-- `Message.to_bytes(sid_override)`: a `sid_override` of 0 falls back to the
message's own `sid`; header byte is `cmd << 6 | trans << 4 | (sid & 0xF)`;
ACK frames carry no oid/payload; the 2-byte length counts header through CRC;
CRC-CCITT (initial 0xFFFF) covers header through payload; the whole body is
escaped and framed by 0x7E/0x7F. -/
def buildFrame (hdr : Nat) (payload : List Nat) : Except EncodeErr (List Nat) :=
  match toBytes2 (payload.length + 5) with
  | .error e => .error e
  | .ok lenB =>
      let buf := hdr :: (lenB ++ payload)
      match toBytes2 (crc_hqx buf 0xFFFF) with
      | .error e => .error e
      | .ok crcB => .ok (0x7E :: (escape (buf ++ crcB) ++ [0x7F]))

/-- `Message.to_bytes(sid_override)`: a `sid_override` of 0 falls back to the
message's own `sid`; the header byte is `cmd << 6 | trans << 4 | (sid & 0xF)`;
ACK frames carry no oid or payload, other frames carry the 2-byte big-endian
oid followed by `export_payload`; `buildFrame` finishes the job. -/
def to_bytes (m : Msg) (sid_override : Nat) : Except EncodeErr (List Nat) :=
  let sid := if sid_override = 0 then m.sid else sid_override
  let hdr := m.cmdType.val * 64 + m.transType.val * 16 + sid % 16
  match (match m.transType with
         | .Ack => Except.ok ([] : List Nat)
         | _ =>
             match toBytes2 m.oid.val, m.export_payload with
             | .ok oidB, .ok pl => .ok (oidB ++ pl)
             | .error e, _ => .error e
             | _, .error e => .error e) with
  | .error e => .error e
  | .ok payload => buildFrame hdr payload

/-- The registry lookup `(cmd_type, trans_type, oid) → class` followed by the
class's `parse_payload`, as performed at the end of `Message.from_bytes`. -/
def dispatch (cmd : CmdType) (trans : TransType) (oid : Oid) (sid : Nat)
    (payload : List Nat) : Except DecodeErr Msg :=
  match cmd, trans, oid with
  | .Push, .Ack, .Invalid => .ok (.getAck sid)
  | .Get, .Ack, .Invalid => .ok (.pushAck sid)
  | .Get, .Default, .GetDeviceInfo => .ok (.getDeviceInfoRequest sid)
  | .Get, .Response, .GetDeviceInfo =>
      match deviceInfoLoads payload with
      | none => .error .badPayload
      | some x =>
          match DevType.fromVal x.dev_type, FileTransSize.fromVal x.file_trans_size with
          | some dt, some fts =>
              .ok (.getDeviceInfoResponse sid dt fts x.hardware_version
                x.software_version x.serial_number x.protocol_version x.ble_mtu)
          | _, _ => .error .badPayload
  | .Get, .Default, .GetFile =>
      match getFileLoads payload with
      | some fn => .ok (.getFile sid fn)
      | none => .error .badPayload
  | .Get, .Response, .GetFile =>
      match getFileRespLoads payload with
      | some e => .ok (.getFileResponse sid e)
      | none => .error .badPayload
  | .Get, .Default, .GetFileStatus => .ok (.getFileStatus sid)
  | .Get, .Response, .GetFileStatus => .ok (.getFileStatusResponse sid)
  | .Push, .Default, .PostFileInfo =>
      match fileInfoLoads payload with
      | some p => .ok (.fileInfo sid p.1 p.2)
      | none => .error .badPayload
  | .Push, .Default, .ReceiveFile =>
      match payload with
      | sq :: fl :: rest =>
          match ReceiveFileFlag.fromVal fl with
          | some flag => .ok (.receiveFile sid sq flag rest)
          | none => .error .badPayload
      | _ => .error .badPayload
  | _, _, _ => .error .unknownPacketType

/-- `Message.from_bytes`: checks delimiters, unescapes, checks CRC over
everything before the trailing CRC bytes, checks the length field, splits the
header byte, handles the ACK/non-ACK shapes and dispatches on the registry. -/
def from_bytes (data : List Nat) : Except DecodeErr Msg :=
  if data.headD 0 ≠ 0x7E then .error .badStart
  else if data.getLastD 0 ≠ 0x7F then .error .badEnd
  else
    match unescape ((data.drop 1).dropLast) with
    | .error e => .error e
    | .ok d =>
        if fromBytesBE (d.drop (d.length - 2)) ≠
            crc_hqx (d.take (d.length - 2)) 0xFFFF then .error .crcMismatch
        else if d.length < 5 then .error .tooShort
        else if fromBytesBE ((d.drop 1).take 2) ≠ d.length then
          .error .lenFieldMismatch
        else
          match CmdType.fromVal (d.headD 0 / 64) with
          | none => .error .badCmdType
          | some cmd =>
              match TransType.fromVal (d.headD 0 / 16 % 4) with
              | none => .error .badTransType
              | some tr =>
                  match tr with
                  | .Ack =>
                      if d.length ≠ 5 then .error .ackBadLen
                      else dispatch cmd .Ack .Invalid (d.headD 0 % 16) []
                  | _ =>
                      if d.length < 7 then .error .nonAckTooShort
                      else
                        match Oid.fromVal (fromBytesBE ((d.drop 3).take 2)) with
                        | none => .error .badOid
                        | some oid =>
                            dispatch cmd tr oid (d.headD 0 % 16)
                              ((d.drop 5).take (d.length - 7))

/-- `Message.ack()`: registry lookup `(cmd_type, Ack, Invalid)` keeps the
message's own sid; no `(Post, Ack, Invalid)` entry exists, so a `Post`
message would raise `KeyError` (`none`). -/
def Msg.ack (m : Msg) : Option Msg :=
  match m.cmdType with
  | .Get => some (.pushAck m.sid)
  | .Push => some (.getAck m.sid)
  | .Post => none

/-- Mutable state of a `PacketStream`: the 4-bit sequence counter, the
notification reassembly buffer, and the queue of decoded messages. -/
structure PacketStream where
  seq : Nat
  rx_buf : List Nat
  rx_messages : List Msg
deriving DecidableEq, Repr

/-- Errors raised out of `PacketStream.on_notify`: the buffer-start assert,
or any decode error from `Message.from_bytes`. -/
inductive NotifyErr
  | bufStartAssert
  | decode (e : DecodeErr)
deriving DecidableEq, Repr

/-- `PacketStream.on_notify`: append the chunk, assert the buffer starts with
0x7E, and when the newest byte is 0x7F decode the whole buffer, enqueue the
message and clear the buffer.  Returns the raised error (if any) together
with the post-state; on error the appended buffer is retained, since the
exception propagates before any reset. -/
def on_notify (s : PacketStream) (chunk : List Nat) : Option NotifyErr × PacketStream :=
  let buf := s.rx_buf ++ chunk
  let s1 : PacketStream := { s with rx_buf := buf }
  if buf.headD 0 ≠ 0x7E then (some .bufStartAssert, s1)
  else if buf.getLastD 0 = 0x7F then
    match from_bytes buf with
    | .error e => (some (.decode e), s1)
    | .ok m => (none, { s1 with rx_buf := [], rx_messages := s1.rx_messages ++ [m] })
  else (none, s1)

/-- `PacketStream.write(message)`: serialize with the stream's current `seq`
as `sid_override` and transmit; the transmitted frame is the result. -/
def PacketStream.write (s : PacketStream) (m : Msg) : Except EncodeErr (List Nat) :=
  to_bytes m s.seq

/-- Errors surfaced by `PacketStream.read` and the download driver. -/
inductive ReadErr
  | timeout
  | sequenceSkew (expected got : Nat)
  | ackKeyError
  | encodeError (e : EncodeErr)
  | attrError
deriving DecidableEq, Repr

/-- `PacketStream.read`: pop the first queued message (an empty queue models
the 60 s timeout), assert its sid equals `seq`, write back `message.ack()`
with the current `seq`, then increment `seq` mod 16.  Returns the message and
the transmitted ack frame; the post-state is returned in both outcomes (the
pop precedes the assert in the source). -/
def PacketStream.read (s : PacketStream) :
    Except ReadErr (Msg × List Nat) × PacketStream :=
  match s.rx_messages with
  | [] => (.error .timeout, s)
  | m :: rest =>
      let s1 : PacketStream := { s with rx_messages := rest }
      if m.sid ≠ s.seq then (.error (.sequenceSkew s.seq m.sid), s1)
      else
        match m.ack with
        | none => (.error .ackKeyError, s1)
        | some a =>
            match to_bytes a s.seq with
            | .error e => (.error (.encodeError e), s1)
            | .ok frame => (.ok (m, frame), { s1 with seq := (s.seq + 1) % 16 })

/-- Perform `n` consecutive `PacketStream.read`s: the ack frames of the
successful reads in order, the first error (if any), and the final state. -/
def readN : Nat → PacketStream → List (List Nat) × Option ReadErr × PacketStream
  | 0, s => ([], none, s)
  | n + 1, s =>
      match PacketStream.read s with
      | (.error e, s') => ([], some e, s')
      | (.ok (_, frame), s') =>
          let r := readN n s'
          (frame :: r.1, r.2.1, r.2.2)

/-- The sid nibble of a serialized frame's header byte.  The header byte is
`frame[1]`: no valid header byte lies in 0x7D..0x7F, so it is never
escape-expanded. -/
def headerSidOfFrame (f : List Nat) : Nat := ((f.drop 1).headD 0) % 16

/-- Filesystem effects of the persistence step of `download_file`.  The
source opens `save_dir/filename` in mode "wb" (truncating) and writes the
assembled bytes; `rename` is listed so that its absence is statable. -/
inductive FsOp
  | openWrite (path : List Nat)
  | writeBytes (path : List Nat) (data : List Nat)
  | rename (src dst : List Nat)
deriving DecidableEq, Repr

/-- `os.path.join(save_dir, filename)` for a directory without a trailing
separator. -/
def pathJoin (dir name : List Nat) : List Nat := dir ++ 0x2F :: name

/-- The fragment loop of `BB16.download_file` with `push_stream.read` inlined
(sid assert, ack write, seq increment mod 16), recursing over the queued
messages: extend the accumulator with `frag.data`, touch `fileInfo.size` (an
`AttributeError` unless the earlier message was a `FileInfo`), stop when the
flag is Last or Single.  No size accounting is performed. -/
def dlLoop (fi : Msg) (seqv : Nat) :
    List Msg → List Nat → Except ReadErr (List Nat × Nat × List Msg)
  | [], _ => .error .timeout
  | m :: rest, acc =>
      if m.sid ≠ seqv then .error (.sequenceSkew seqv m.sid)
      else
        match m.ack with
        | none => .error .ackKeyError
        | some a =>
            match to_bytes a seqv with
            | .error e => .error (.encodeError e)
            | .ok _ =>
                match m with
                | .receiveFile _ _ flag d =>
                    let acc2 := acc ++ d
                    match fi with
                    | .fileInfo _ _ _ =>
                        if flag = .Last ∨ flag = .Single then
                          .ok (acc2, (seqv + 1) % 16, rest)
                        else dlLoop fi ((seqv + 1) % 16) rest acc2
                    | _ => .error .attrError
                | _ => .error .attrError

/-- `BB16.download_file(filename, save_dir)`: send `GetFile` on the GET
stream, read the response there (`resp.exist` is an `AttributeError` unless
it is a `GetFileResponse`; `exist = false` returns `None`), read the
`FileInfo` message on the PUSH stream, run the fragment loop, and finally —
only when a `save_dir` is given — open `save_dir/filename` for writing and
write the assembled bytes.  Returns the result together with the filesystem
operations performed. -/
def download_file (filename : List Nat) (gets pushs : PacketStream)
    (save_dir : Option (List Nat)) :
    Except ReadErr (Option (List Nat)) × List FsOp :=
  match to_bytes (.getFile 0 filename) gets.seq with
  | .error e => (.error (.encodeError e), [])
  | .ok _ =>
      match PacketStream.read gets with
      | (.error e, _) => (.error e, [])
      | (.ok (resp, _), _) =>
          match resp with
          | .getFileResponse _ exist =>
              if exist = false then (.ok none, [])
              else
                match PacketStream.read pushs with
                | (.error e, _) => (.error e, [])
                | (.ok (fi, _), pushs1) =>
                    match dlLoop fi pushs1.seq pushs1.rx_messages [] with
                    | .error e => (.error e, [])
                    | .ok (bytes, _, _) =>
                        match save_dir with
                        | none => (.ok (some bytes), [])
                        | some dir =>
                            (.ok (some bytes),
                              [.openWrite (pathJoin dir filename),
                               .writeBytes (pathJoin dir filename) bytes])
          | _ => (.error .attrError, [])

theorem getLastD_cons_concat (a x : Nat) (l : List Nat) :
    (a :: (l ++ [x])).getLastD 0 = x := by
  induction l generalizing a with
  | nil => rfl
  | cons y t ih => simpa using ih y

theorem cmdType_val_le (c : CmdType) : c.val ≤ 2 := by cases c <;> simp [CmdType.val]

theorem transType_val_le (t : TransType) : t.val ≤ 2 := by
  cases t <;> simp [TransType.val]

theorem Oid.val_lt (o : Oid) : o.val < 65536 := by cases o <;> norm_num [Oid.val]

/-- The header byte `cmd << 6 | trans << 4 | (sid & 0xF)` that
`to_bytes(sid_override)` produces. -/
def hdrByte (m : Msg) (so : Nat) : Nat :=
  m.cmdType.val * 64 + m.transType.val * 16 + (if so = 0 then m.sid else so) % 16

theorem hdrByte_not_special (m : Msg) (so : Nat) :
    ¬(hdrByte m so = 0x7D ∨ hdrByte m so = 0x7E ∨ hdrByte m so = 0x7F) := by
  have hc := cmdType_val_le m.cmdType
  have ht := transType_val_le m.transType
  unfold hdrByte
  omega

/-- The value of the frame `to_bytes` builds from a header byte and the
oid-plus-payload bytes: 2-byte length, CRC, escaping, delimiters. -/
def frameFor (hdr : Nat) (payload : List Nat) : List Nat :=
  let lenB := [(payload.length + 5) / 256, (payload.length + 5) % 256]
  let buf := hdr :: (lenB ++ payload)
  let crc := crc_hqx buf 0xFFFF
  0x7E :: (escape (buf ++ [crc / 256, crc % 256]) ++ [0x7F])

/-- The oid-plus-payload bytes `to_bytes` places between the length field and
the CRC: two big-endian oid bytes followed by `export_payload` for non-ACK
messages, nothing for ACKs.  (`receiveFile` matches the encoder only in the
encodable region `seq < 256`, which `to_bytes_shape` guarantees.) -/
def payloadBytes : Msg → List Nat
  | .getAck _ => []
  | .pushAck _ => []
  | .getDeviceInfoRequest _ => [0, 1]
  | .getDeviceInfoResponse _ dt fts hw sw sn pv mtu =>
      [0, 1] ++ deviceInfoDumps ⟨dt.val, fts.val, hw, sw, sn, pv, mtu⟩
  | .getFile _ fn => [0, 41] ++ getFileDumps fn
  | .getFileResponse _ e => [0, 41] ++ getFileRespDumps e
  | .getFileStatus _ => [0, 50]
  | .getFileStatusResponse _ => [0, 50]
  | .fileInfo _ fn sz => [0, 43] ++ fileInfoDumps fn sz
  | .receiveFile _ sq fl d => [0, 44] ++ (sq :: fl.val :: d)

theorem buildFrame_ok (hdr : Nat) (payload : List Nat) (f : List Nat)
    (h : buildFrame hdr payload = .ok f) :
    payload.length + 5 < 65536 ∧ f = frameFor hdr payload := by
  unfold buildFrame toBytes2 at h
  by_cases hL : payload.length + 5 < 65536
  · rw [if_pos hL] at h
    simp only [] at h
    rw [if_pos (show crc_hqx _ 0xFFFF < 65536 from
      lt_of_le_of_lt (crc_hqx_le _ _) (by norm_num))] at h
    cases h
    exact ⟨hL, rfl⟩
  · rw [if_neg hL] at h
    cases h

theorem buildFrame_of_lt (hdr : Nat) (payload : List Nat)
    (hL : payload.length + 5 < 65536) :
    buildFrame hdr payload = .ok (frameFor hdr payload) := by
  unfold buildFrame toBytes2
  rw [if_pos hL]
  simp only []
  rw [if_pos (show crc_hqx _ 0xFFFF < 65536 from
    lt_of_le_of_lt (crc_hqx_le _ _) (by norm_num))]
  rfl

theorem to_bytes_shape (m : Msg) (so : Nat) (f : List Nat)
    (h : to_bytes m so = .ok f) :
    (payloadBytes m).length + 5 < 65536 ∧
      f = frameFor (hdrByte m so) (payloadBytes m) := by
  cases m with
  | getAck s => exact buildFrame_ok _ _ _ h
  | pushAck s => exact buildFrame_ok _ _ _ h
  | getDeviceInfoRequest s =>
      simp only [to_bytes, Msg.transType, Msg.oid, Msg.export_payload, Oid.val,
        toBytes2] at h
      norm_num at h
      exact buildFrame_ok _ _ _ h
  | getFileStatus s =>
      simp only [to_bytes, Msg.transType, Msg.oid, Msg.export_payload, Oid.val,
        toBytes2] at h
      norm_num at h
      exact buildFrame_ok _ _ _ h
  | getFileStatusResponse s =>
      simp only [to_bytes, Msg.transType, Msg.oid, Msg.export_payload, Oid.val,
        toBytes2] at h
      norm_num at h
      exact buildFrame_ok _ _ _ h
  | getDeviceInfoResponse s dt fts hw sw sn pv mtu =>
      simp only [to_bytes, Msg.transType, Msg.oid, Msg.export_payload, Oid.val,
        toBytes2] at h
      norm_num at h
      exact buildFrame_ok _ _ _ h
  | getFile s fn =>
      simp only [to_bytes, Msg.transType, Msg.oid, Msg.export_payload, Oid.val,
        toBytes2] at h
      norm_num at h
      exact buildFrame_ok _ _ _ h
  | getFileResponse s e =>
      simp only [to_bytes, Msg.transType, Msg.oid, Msg.export_payload, Oid.val,
        toBytes2] at h
      norm_num at h
      exact buildFrame_ok _ _ _ h
  | fileInfo s fn sz =>
      simp only [to_bytes, Msg.transType, Msg.oid, Msg.export_payload, Oid.val,
        toBytes2] at h
      norm_num at h
      exact buildFrame_ok _ _ _ h
  | receiveFile s sq fl d =>
      simp only [to_bytes, Msg.transType, Msg.oid, Msg.export_payload, Oid.val,
        toBytes2, toBytes1] at h
      norm_num at h
      by_cases hsq : sq < 256
      · rw [if_pos hsq] at h
        exact buildFrame_ok _ _ _ h
      · rw [if_neg hsq] at h
        simp at h

theorem escape_cons_not_special (b : Nat)
    (hb : ¬(b = 0x7D ∨ b = 0x7E ∨ b = 0x7F)) (l : List Nat) :
    escape (b :: l) = b :: escape l := by
  rw [escape]
  rw [if_neg hb]

theorem headerSid_to_bytes (m : Msg) (so : Nat) (f : List Nat)
    (h : to_bytes m so = .ok f) :
    headerSidOfFrame f = (if so = 0 then m.sid else so) % 16 := by
  obtain ⟨_, hf⟩ := to_bytes_shape m so f h
  subst hf
  unfold frameFor headerSidOfFrame
  simp only [List.cons_append]
  rw [escape_cons_not_special _ (hdrByte_not_special m so)]
  simp only [List.drop_succ_cons, List.drop_zero, List.cons_append,
    List.headD_cons]
  have hc := cmdType_val_le m.cmdType
  have ht := transType_val_le m.transType
  unfold hdrByte
  omega

theorem headD_append_left (l l2 : List Nat) (d : Nat) (h : l ≠ []) :
    (l ++ l2).headD d = l.headD d := by
  cases l with
  | nil => exact absurd rfl h
  | cons a t => rfl

/-- C3: for every byte string `b`, `unescape(escape(b)) = b`; in particular
`escape` maps the bytes 7D 7E 7F to 7D 01 7D 02 7D 03, and `unescape` maps
those six bytes back. -/
theorem claim3_framing_roundtrip :
    (∀ b : List Nat, unescape (escape b) = .ok b) ∧
    escape [0x7D, 0x7E, 0x7F] = [0x7D, 0x01, 0x7D, 0x02, 0x7D, 0x03] ∧
    unescape [0x7D, 0x01, 0x7D, 0x02, 0x7D, 0x03] = .ok [0x7D, 0x7E, 0x7F] :=
  ⟨unescape_escape, rfl, rfl⟩

/-- The captured GetDeviceInfo response frame that the repository test
`test_message_parsing` decodes (hex
7e100029000108021a0456322e31220656312e302e372a0731343636313933320456312e3038c801f08d7f). -/
def c5Frame : List Nat :=
  [0x7e, 0x10, 0x00, 0x29, 0x00, 0x01, 0x08, 0x02, 0x1a, 0x04, 0x56, 0x32,
   0x2e, 0x31, 0x22, 0x06, 0x56, 0x31, 0x2e, 0x30, 0x2e, 0x37, 0x2a, 0x07,
   0x31, 0x34, 0x36, 0x36, 0x31, 0x39, 0x33, 0x32, 0x04, 0x56, 0x31, 0x2e,
   0x30, 0x38, 0xc8, 0x01, 0xf0, 0x8d, 0x7f]

/-- What the frame actually decodes to: dev_type raw 2 (BikeComputer),
file_trans_size defaulted to raw 2 (field 2 absent), hardware "V2.1",
software "V1.0.7", serial "1466193", protocol "V1.0", ble_mtu 200. -/
def c5Actual : Msg :=
  .getDeviceInfoResponse 0 .DEV_TYPE_BIKE_COMPUTER .FILE_TRANS_SIZE_512
    [86, 50, 46, 49] [86, 49, 46, 48, 46, 55] [49, 52, 54, 54, 49, 57, 51]
    [86, 49, 46, 48] 200

/-- The decode the spec asserts for that frame: dev_type Hub (raw 1),
serial "14661932", protocol "V1.08". -/
def c5Claimed : Msg :=
  .getDeviceInfoResponse 0 .DEV_TYPE_HUB .FILE_TRANS_SIZE_512
    [86, 50, 46, 49] [86, 49, 46, 48, 46, 55]
    [49, 52, 54, 54, 49, 57, 51, 50] [86, 49, 46, 48, 56] 200

/-- C5 counterexample: the captured frame decodes to `c5Actual`, whose
dev_type, serial_number and protocol_version differ from the spec's claimed
decode `c5Claimed`. -/
theorem claim5_counterexample :
    from_bytes c5Frame = .ok c5Actual ∧ c5Actual ≠ c5Claimed :=
  ⟨rfl, by decide⟩

/-- C5 (amended): the frame decodes successfully to a GetDeviceInfoResponse
with sid 0, cmd Get, trans Response, dev_type BikeComputer (raw 2),
file_trans_size FILE_TRANS_SIZE_512 (raw 2, via the default — field 2 is
absent from the wire), hardware "V2.1", software "V1.0.7", serial "1466193",
protocol "V1.0", ble_mtu 200. -/
theorem claim5_decode : from_bytes c5Frame = .ok c5Actual := rfl

/-- C6 (amended): `PacketStream.write` serializes with `sid_override = seq`,
and `to_bytes` falls back to the message's own `sid` when the override is 0;
hence the transmitted header sid is `seq % 16` whenever `seq ≠ 0` but
`m.sid % 16` when `seq = 0`. -/
theorem claim6_write_header_sid (s : PacketStream) (m : Msg) (f : List Nat)
    (h : PacketStream.write s m = .ok f) :
    headerSidOfFrame f = (if s.seq = 0 then m.sid else s.seq) % 16 :=
  headerSid_to_bytes m s.seq f h

/-- C6 witness: a concrete write on a stream with `seq = 3`. -/
theorem claim6_write_header_sid_witness :
    headerSidOfFrame [126, 3, 0, 7, 0, 50, 108, 95, 127] =
      (if (⟨3, [], []⟩ : PacketStream).seq = 0 then (Msg.getFileStatus 0).sid
       else (⟨3, [], []⟩ : PacketStream).seq) % 16 :=
  claim6_write_header_sid ⟨3, [], []⟩ (.getFileStatus 0)
    [126, 3, 0, 7, 0, 50, 108, 95, 127] rfl

/-- C6 counterexample: on a stream whose `seq` is 0, writing a message with
`sid = 5` transmits header sid 5, not the stream's `seq` — refuting
"regardless of the sid field stored in m itself". -/
theorem claim6_counterexample :
    PacketStream.write ⟨0, [], []⟩ (.getFileStatus 5) =
      .ok [126, 5, 0, 7, 0, 50, 161, 218, 127] ∧
    headerSidOfFrame [126, 5, 0, 7, 0, 50, 161, 218, 127] = 5 ∧
    (5 : Nat) ≠ (⟨0, [], []⟩ : PacketStream).seq :=
  ⟨rfl, rfl, by decide⟩

/-- C8 (amended): when the appended buffer does not start with 0x7E the
assert raises, but the buffer is NOT discarded: `rx_buf` keeps the bad bytes,
and every subsequent chunk on the stream fails the same assert (until
`clear()`), so later well-formed frames are not received. -/
theorem claim8_bad_start_keeps_buffer (s : PacketStream) (chunk : List Nat)
    (h : (s.rx_buf ++ chunk).headD 0 ≠ 0x7E) :
    on_notify s chunk =
      (some .bufStartAssert, { s with rx_buf := s.rx_buf ++ chunk }) ∧
    ∀ chunk2, (s.rx_buf ++ chunk) ≠ [] →
      (on_notify { s with rx_buf := s.rx_buf ++ chunk } chunk2).1 =
        some .bufStartAssert := by
  constructor
  · unfold on_notify
    simp only []
    rw [if_pos h]
  · intro chunk2 hne
    unfold on_notify
    simp only []
    rw [if_pos (by rw [headD_append_left _ _ _ hne]; exact h)]

/-- C8 witness: a concrete bad chunk on a fresh stream. -/
theorem claim8_bad_start_keeps_buffer_witness :
    on_notify ⟨0, [], []⟩ [1, 2] =
      (some .bufStartAssert,
        (⟨0, ([] : List Nat) ++ [1, 2], []⟩ : PacketStream)) ∧
    ∀ chunk2, (([] : List Nat) ++ [1, 2]) ≠ [] →
      (on_notify (⟨0, ([] : List Nat) ++ [1, 2], []⟩ : PacketStream) chunk2).1 =
        some .bufStartAssert :=
  claim8_bad_start_keeps_buffer ⟨0, [], []⟩ [1, 2] (by decide)

/-- C8 counterexample: after the bad chunk the buffer holds the bad bytes —
it is not left empty as the claim asserts. -/
theorem claim8_counterexample :
    on_notify ⟨0, [], []⟩ [0] = (some .bufStartAssert, ⟨0, [0], []⟩) ∧
    (⟨0, [0], []⟩ : PacketStream).rx_buf ≠ [] :=
  ⟨rfl, by decide⟩

theorem unescape_escape_append (a rest : List Nat) :
    unescape (escape a ++ rest) = (unescape rest).map (a ++ ·) := by
  induction a with
  | nil =>
      simp only [escape, List.nil_append]
      cases unescape rest <;> simp [Except.map]
  | cons x t ih =>
      by_cases hx : x = 0x7D ∨ x = 0x7E ∨ x = 0x7F
      · rcases hx with h | h | h <;> subst h <;>
          simp [escape, unescape, ih, Except.map] <;>
          (cases unescape rest <;> simp [Except.map])
      · have hne : x ≠ 0x7D := by tauto
        simp only [escape, if_neg hx, List.cons_append]
        rw [unescape.eq_def]
        simp only [if_neg hne]
        rw [ih]
        cases unescape rest <;> simp [Except.map]

theorem getLastD_append_right (l1 l2 : List Nat) (d : Nat) (h : l2 ≠ []) :
    (l1 ++ l2).getLastD d = l2.getLastD d := by
  rw [List.getLastD_eq_getLast?, List.getLastD_eq_getLast?,
    List.getLast?_append_of_ne_nil _ h]

theorem unescape_cons_plain (b : Nat) (hb : b ≠ 0x7D) (l : List Nat) :
    unescape (b :: l) = (unescape l).map (fun tl => b :: tl) := by
  rw [unescape.eq_def]
  simp only [if_neg hb]

/-- The unescaped body of a frame: header, 2-byte length, payload, 2-byte
CRC. -/
def frameBody (hdr : Nat) (payload : List Nat) : List Nat :=
  let lenB := [(payload.length + 5) / 256, (payload.length + 5) % 256]
  let buf := hdr :: (lenB ++ payload)
  buf ++ [crc_hqx buf 0xFFFF / 256, crc_hqx buf 0xFFFF % 256]

theorem frameFor_eq_body (hdr : Nat) (payload : List Nat) :
    frameFor hdr payload = 0x7E :: (escape (frameBody hdr payload) ++ [0x7F]) :=
  rfl

theorem frameBody_length (hdr : Nat) (payload : List Nat) :
    (frameBody hdr payload).length = payload.length + 5 := by
  simp [frameBody]

theorem frameBody_ne_nil (hdr : Nat) (payload : List Nat) :
    frameBody hdr payload ≠ [] := by
  intro hc
  have := frameBody_length hdr payload
  rw [hc] at this
  simp only [List.length_nil] at this
  omega

theorem frameBody_lenField (hdr : Nat) (payload : List Nat) :
    ((frameBody hdr payload).drop 1).take 2 =
      [(payload.length + 5) / 256, (payload.length + 5) % 256] := by
  simp [frameBody]

/-- Decoding the concatenation of the unescaped bodies of two valid frames
(with the stray `7F 7E` in between) fails with the CRC check or the
length-field check. -/
theorem from_bytes_two_bodies (h1 h2 : Nat) (p1 p2 : List Nat)
    (f : List Nat)
    (hf : f = 0x7E :: ((escape (frameBody h1 p1) ++ [0x7F]) ++
      (0x7E :: (escape (frameBody h2 p2) ++ [0x7F])))) :
    from_bytes f = .error .crcMismatch ∨
      from_bytes f = .error .lenFieldMismatch := by
  subst hf
  have hlast : ((0x7E : Nat) :: ((escape (frameBody h1 p1) ++ [0x7F]) ++
      (0x7E :: (escape (frameBody h2 p2) ++ [0x7F])))).getLastD 0 = 0x7F := by
    rw [show (0x7E : Nat) :: ((escape (frameBody h1 p1) ++ [0x7F]) ++
        (0x7E :: (escape (frameBody h2 p2) ++ [0x7F]))) =
      ((0x7E : Nat) :: ((escape (frameBody h1 p1) ++ [0x7F]) ++
        (0x7E :: escape (frameBody h2 p2)))) ++ [0x7F] by simp]
    rw [getLastD_append_right _ _ _ (by simp)]
    rfl
  unfold from_bytes
  rw [if_neg (by simp)]
  rw [if_neg (fun hcc => hcc hlast)]
  rw [show ((((0x7E : Nat) :: ((escape (frameBody h1 p1) ++ [0x7F]) ++
      (0x7E :: (escape (frameBody h2 p2) ++ [0x7F])))).drop 1).dropLast) =
    escape (frameBody h1 p1) ++
      (0x7F :: 0x7E :: escape (frameBody h2 p2)) by
    rw [List.drop_succ_cons, List.drop_zero]
    rw [show (escape (frameBody h1 p1) ++ [0x7F]) ++
        ((0x7E : Nat) :: (escape (frameBody h2 p2) ++ [0x7F])) =
      (escape (frameBody h1 p1) ++
        (0x7F :: 0x7E :: escape (frameBody h2 p2))) ++ [0x7F] by simp]
    rw [List.dropLast_concat]]
  rw [unescape_escape_append]
  rw [show unescape ((0x7F : Nat) :: 0x7E :: escape (frameBody h2 p2)) =
      .ok (0x7F :: 0x7E :: frameBody h2 p2) by
    rw [unescape_cons_plain _ (by norm_num), unescape_cons_plain _ (by norm_num),
      unescape_escape]
    rfl]
  simp only [Except.map]
  set d := frameBody h1 p1 ++ (0x7F :: 0x7E :: frameBody h2 p2) with hd
  have hdlen : d.length = p1.length + p2.length + 12 := by
    rw [hd]
    simp [frameBody_length]
    omega
  by_cases hcrc : fromBytesBE (d.drop (d.length - 2)) ≠
      crc_hqx (d.take (d.length - 2)) 0xFFFF
  · left
    rw [if_pos hcrc]
  · right
    rw [if_neg hcrc]
    rw [if_neg (by omega)]
    rw [if_pos ?hlf]
    case hlf =>
      have hdrop : d.drop 1 = (frameBody h1 p1).drop 1 ++
          (0x7F :: 0x7E :: frameBody h2 p2) := by
        rw [hd, List.drop_append_eq_append_drop]
        rw [show 1 - (frameBody h1 p1).length = 0 by
          have := frameBody_length h1 p1; omega]
        rw [List.drop_zero]
      have htake : (d.drop 1).take 2 = ((frameBody h1 p1).drop 1).take 2 := by
        rw [hdrop, List.take_append_eq_append_take]
        rw [show 2 - ((frameBody h1 p1).drop 1).length = 0 by
          have := frameBody_length h1 p1
          simp
          omega]
        simp
      rw [htake, frameBody_lenField, fromBytesBE_pair]
      omega

/-- C10: delivering two complete valid frames in one notification chunk makes
`on_notify` decode the whole concatenation as one frame, which fails the CRC
or length check; neither message is enqueued and the buffer keeps the bad
bytes. -/
theorem claim10_concatenated_frames (m1 m2 : Msg) (so1 so2 : Nat)
    (f1 f2 : List Nat) (h1 : to_bytes m1 so1 = .ok f1)
    (h2 : to_bytes m2 so2 = .ok f2) (s : PacketStream) (hbuf : s.rx_buf = []) :
    ∃ e, (e = DecodeErr.crcMismatch ∨ e = DecodeErr.lenFieldMismatch) ∧
      on_notify s (f1 ++ f2) =
        (some (.decode e), { s with rx_buf := f1 ++ f2 }) := by
  obtain ⟨_, hf1⟩ := to_bytes_shape m1 so1 f1 h1
  obtain ⟨_, hf2⟩ := to_bytes_shape m2 so2 f2 h2
  rw [frameFor_eq_body] at hf1 hf2
  have hcat : f1 ++ f2 = 0x7E :: ((escape (frameBody (hdrByte m1 so1)
      (payloadBytes m1)) ++ [0x7F]) ++ (0x7E :: (escape (frameBody
      (hdrByte m2 so2) (payloadBytes m2)) ++ [0x7F]))) := by
    rw [hf1, hf2]
    simp
  have hdec := from_bytes_two_bodies (hdrByte m1 so1) (hdrByte m2 so2)
    (payloadBytes m1) (payloadBytes m2) (f1 ++ f2) hcat
  have hhead : (f1 ++ f2).headD 0 = 0x7E := by rw [hcat]; rfl
  have hlast : (f1 ++ f2).getLastD 0 = 0x7F := by
    rw [hcat]
    rw [show (0x7E : Nat) :: ((escape (frameBody (hdrByte m1 so1)
        (payloadBytes m1)) ++ [0x7F]) ++ (0x7E :: (escape (frameBody
        (hdrByte m2 so2) (payloadBytes m2)) ++ [0x7F]))) =
      ((0x7E : Nat) :: ((escape (frameBody (hdrByte m1 so1)
        (payloadBytes m1)) ++ [0x7F]) ++ (0x7E :: escape (frameBody
        (hdrByte m2 so2) (payloadBytes m2))))) ++ [0x7F] by simp]
    rw [getLastD_append_right _ _ _ (by simp)]
    rfl
  have hstep : on_notify s (f1 ++ f2) =
      (match from_bytes (f1 ++ f2) with
        | .error e =>
            (some (.decode e), (⟨s.seq, f1 ++ f2, s.rx_messages⟩ : PacketStream))
        | .ok m =>
            (none, (⟨s.seq, [], s.rx_messages ++ [m]⟩ : PacketStream))) := by
    unfold on_notify
    simp only [hbuf, List.nil_append]
    rw [if_neg (fun hcc => hcc hhead)]
    rw [if_pos hlast]
  rcases hdec with hdec | hdec
  · exact ⟨.crcMismatch, Or.inl rfl, by rw [hstep, hdec]⟩
  · exact ⟨.lenFieldMismatch, Or.inr rfl, by rw [hstep, hdec]⟩

/-- C10 witness: two concrete valid frames concatenated into one chunk. -/
theorem claim10_concatenated_frames_witness :
    ∃ e, (e = DecodeErr.crcMismatch ∨ e = DecodeErr.lenFieldMismatch) ∧
      on_notify ⟨0, [], []⟩ ([126, 0, 0, 7, 0, 50, 130, 141, 127] ++
          [126, 0, 0, 7, 0, 1, 132, 189, 127]) =
        (some (.decode e),
          (⟨0, [126, 0, 0, 7, 0, 50, 130, 141, 127] ++
            [126, 0, 0, 7, 0, 1, 132, 189, 127], []⟩ : PacketStream)) :=
  claim10_concatenated_frames (.getFileStatus 0) (.getDeviceInfoRequest 0)
    0 0 _ _ rfl rfl ⟨0, [], []⟩ rfl

theorem to_bytes_getAck (sid so : Nat) :
    to_bytes (.getAck sid) so = .ok (frameFor (hdrByte (.getAck sid) so) []) :=
  buildFrame_of_lt _ [] (by norm_num)

theorem to_bytes_pushAck (sid so : Nat) :
    to_bytes (.pushAck sid) so = .ok (frameFor (hdrByte (.pushAck sid) so) []) :=
  buildFrame_of_lt _ [] (by norm_num)

/-- Every registered message has an ack (its cmd_type is Get or Push), the
ack keeps the message's sid, and ack serialization always succeeds. -/
theorem ack_exists (m : Msg) (so : Nat) :
    ∃ a, m.ack = some a ∧ a.sid = m.sid ∧
      to_bytes a so = .ok (frameFor (hdrByte a so) []) := by
  cases m <;>
    first
    | exact ⟨.pushAck _, rfl, rfl, to_bytes_pushAck _ _⟩
    | exact ⟨.getAck _, rfl, rfl, to_bytes_getAck _ _⟩

/-- A read from a queue whose head carries the expected sid succeeds, acks
with the pre-increment `seq` in the ack frame's header, and increments
`seq` mod 16. -/
theorem read_success (sq : Nat) (buf : List Nat) (m : Msg) (rest : List Msg)
    (hsid : m.sid = sq) (hlt : sq < 16) :
    ∃ fr, PacketStream.read ⟨sq, buf, m :: rest⟩ =
        (.ok (m, fr), ⟨(sq + 1) % 16, buf, rest⟩) ∧
      headerSidOfFrame fr = sq := by
  obtain ⟨a, hack, hasid, henc⟩ := ack_exists m sq
  refine ⟨frameFor (hdrByte a sq) [], ?_, ?_⟩
  · unfold PacketStream.read
    simp only []
    rw [if_neg (fun hcc => hcc hsid)]
    rw [hack]
    simp only []
    rw [henc]
  · have := headerSid_to_bytes a sq _ henc
    rw [this, hasid, hsid]
    by_cases h0 : sq = 0
    · subst h0; rfl
    · rw [if_neg h0]
      omega

theorem readN_good :
    ∀ (msgs : List Msg) (sq : Nat) (buf : List Nat), sq < 16 →
    (∀ i (hi : i < msgs.length), (msgs.get ⟨i, hi⟩).sid = (sq + i) % 16) →
    ∃ acks, readN msgs.length ⟨sq, buf, msgs⟩ =
        (acks, none, ⟨(sq + msgs.length) % 16, buf, []⟩) ∧
      acks.length = msgs.length ∧
      ∀ i (hi : i < acks.length),
        headerSidOfFrame (acks.get ⟨i, hi⟩) = (sq + i) % 16 := by
  intro msgs
  induction msgs with
  | nil =>
      intro sq buf hlt _
      refine ⟨[], ?_, rfl, by intro i hi; simp at hi⟩
      simp only [List.length_nil, readN]
      rw [show (sq + 0) % 16 = sq by omega]
  | cons m tl ih =>
      intro sq buf hlt hgood
      have h0 : m.sid = sq := by
        have := hgood 0 (by simp)
        simp at this
        omega
      obtain ⟨fr, hread, hhdr⟩ := read_success sq buf m tl h0 hlt
      obtain ⟨acks, hrn, hlen, hidx⟩ := ih ((sq + 1) % 16) buf (by omega)
        (fun i hi => by
          have := hgood (i + 1) (by simpa using Nat.succ_lt_succ hi)
          rw [show ((m :: tl).get ⟨i + 1, by simpa using Nat.succ_lt_succ hi⟩) =
            tl.get ⟨i, hi⟩ from rfl] at this
          omega)
      refine ⟨fr :: acks, ?_, by simpa using hlen, ?_⟩
      · rw [show (m :: tl).length = tl.length + 1 from rfl, readN, hread]
        simp only [hrn]
        rw [show ((sq + 1) % 16 + tl.length) % 16 = (sq + (tl.length + 1)) % 16
          by omega]
      · intro i hi
        cases i with
        | zero =>
            rw [show ((fr :: acks).get ⟨0, hi⟩) = fr from rfl, hhdr]
            omega
        | succ j =>
            have hj : j < acks.length := by simpa using hi
            rw [show ((fr :: acks).get ⟨j + 1, hi⟩) = acks.get ⟨j, hj⟩ from rfl]
            rw [hidx j hj]
            omega

theorem readN_bad :
    ∀ (msgs : List Msg) (k : Nat) (sq : Nat) (buf : List Nat), sq < 16 →
    ∀ (hk : k < msgs.length),
    (∀ j (hj : j < k), (msgs.get ⟨j, Nat.lt_trans hj hk⟩).sid = (sq + j) % 16) →
    (msgs.get ⟨k, hk⟩).sid ≠ (sq + k) % 16 →
    ∀ n, k < n →
    ∃ acks s2, readN n ⟨sq, buf, msgs⟩ =
        (acks, some (.sequenceSkew ((sq + k) % 16) ((msgs.get ⟨k, hk⟩).sid)), s2) ∧
      acks.length = k := by
  intro msgs
  induction msgs with
  | nil => intro k sq buf _ hk; simp at hk
  | cons m tl ih =>
      intro k sq buf hlt hk hgood hbad n hn
      cases n with
      | zero => omega
      | succ n =>
          cases k with
          | zero =>
              have hb : m.sid ≠ sq := by
                intro hc
                exact hbad (by simpa using by omega)
              refine ⟨[], ⟨sq, buf, tl⟩, ?_, rfl⟩
              rw [readN]
              unfold PacketStream.read
              simp only []
              rw [if_pos hb]
              rw [show (sq + 0) % 16 = sq by omega]
              rfl
          | succ k =>
              have h0 : m.sid = sq := by
                have := hgood 0 (by omega)
                simp at this
                omega
              obtain ⟨fr, hread, _⟩ := read_success sq buf m tl h0 hlt
              have hk2 : k < tl.length := by simpa using hk
              obtain ⟨acks, s2, hrn, hlen⟩ := ih k ((sq + 1) % 16) buf (by omega)
                hk2
                (fun j hj => by
                  have := hgood (j + 1) (by omega)
                  rw [show ((m :: tl).get ⟨j + 1, by simp; omega⟩) =
                    tl.get ⟨j, Nat.lt_trans hj hk2⟩ from rfl] at this
                  omega)
                (by
                  rw [show (tl.get ⟨k, hk2⟩) = ((m :: tl).get ⟨k + 1, hk⟩)
                    from rfl]
                  intro hc
                  exact hbad (by rw [hc]; omega))
                n (by omega)
              refine ⟨fr :: acks, s2, ?_, by simpa using hlen⟩
              rw [readN, hread]
              simp only [hrn]
              rw [show ((sq + 1) % 16 + k) % 16 = (sq + (k + 1)) % 16 by omega]
              rw [show (tl.get ⟨k, hk2⟩) = ((m :: tl).get ⟨k + 1, hk⟩) from rfl]

/-- C2: reading `N` well-formed queued frames with sids `0,1,…,N-1 mod 16`
succeeds, leaving `seq = N mod 16`, and each transmitted ack carries the
just-received sid (the pre-increment `seq`) in its header; a frame with any
other sid at position `k` makes exactly the `k`-th read fail with the
sequence-skew error, no earlier read failing. -/
theorem claim2_sequence_law (msgs : List Msg) (buf : List Nat) :
    ((∀ i (hi : i < msgs.length), (msgs.get ⟨i, hi⟩).sid = i % 16) →
      ∃ acks, readN msgs.length ⟨0, buf, msgs⟩ =
          (acks, none, ⟨msgs.length % 16, buf, []⟩) ∧
        acks.length = msgs.length ∧
        ∀ i (hi : i < acks.length),
          headerSidOfFrame (acks.get ⟨i, hi⟩) = i % 16)
    ∧
    (∀ k (hk : k < msgs.length),
      (∀ j (hj : j < k), (msgs.get ⟨j, Nat.lt_trans hj hk⟩).sid = j % 16) →
      (msgs.get ⟨k, hk⟩).sid ≠ k % 16 →
      ∃ acks s2, readN msgs.length ⟨0, buf, msgs⟩ =
          (acks, some (.sequenceSkew (k % 16) ((msgs.get ⟨k, hk⟩).sid)), s2) ∧
        acks.length = k) := by
  constructor
  · intro h
    obtain ⟨acks, h1, h2, h3⟩ := readN_good msgs 0 buf (by norm_num)
      (fun i hi => by rw [Nat.zero_add]; exact h i hi)
    refine ⟨acks, ?_, h2, ?_⟩
    · rw [h1]
      rw [Nat.zero_add]
    · intro i hi
      have := h3 i hi
      rwa [Nat.zero_add] at this
  · intro k hk hgood hbad
    obtain ⟨acks, s2, h1, h2⟩ := readN_bad msgs k 0 buf (by norm_num) hk
      (fun j hj => by rw [Nat.zero_add]; exact hgood j hj)
      (by rw [Nat.zero_add]; exact hbad)
      msgs.length hk
    refine ⟨acks, s2, ?_, h2⟩
    rw [h1]
    rw [Nat.zero_add]

/-- C2 witness: a two-frame good run and a run with a wrong sid at index 1. -/
theorem claim2_sequence_law_witness :
    (∃ acks, readN ([Msg.getFileStatus 0, Msg.getFileStatus 1].length)
        ⟨0, [], [Msg.getFileStatus 0, Msg.getFileStatus 1]⟩ =
        (acks, none,
          ⟨[Msg.getFileStatus 0, Msg.getFileStatus 1].length % 16, [], []⟩) ∧
      acks.length = [Msg.getFileStatus 0, Msg.getFileStatus 1].length ∧
      ∀ i (hi : i < acks.length),
        headerSidOfFrame (acks.get ⟨i, hi⟩) = i % 16) ∧
    (∃ acks s2, readN ([Msg.getFileStatus 0, Msg.getFileStatus 7].length)
        ⟨0, [], [Msg.getFileStatus 0, Msg.getFileStatus 7]⟩ =
        (acks, some (.sequenceSkew (1 % 16)
          (([Msg.getFileStatus 0, Msg.getFileStatus 7].get
            ⟨1, by norm_num⟩).sid)), s2) ∧
      acks.length = 1) :=
  ⟨(claim2_sequence_law [.getFileStatus 0, .getFileStatus 1] []).1 (by decide),
   (claim2_sequence_law [.getFileStatus 0, .getFileStatus 7] []).2 1
     (by norm_num) (by decide) (by decide)⟩

theorem pbParse_vintField_nil (n v : Nat) (hn : n ≤ 15) :
    pbParse (pbFieldVint n v) = some [(n, PbVal.vint v)] := by
  have h := pbParse_vintField n v hn []
  rw [List.append_nil] at h
  rw [h]
  rfl

theorem pbParse_lenField_nil (n : Nat) (bs : List Nat) (hn : n ≤ 15) :
    pbParse (pbFieldLen n bs) = some [(n, PbVal.lenDelim bs)] := by
  have h := pbParse_lenField n bs hn []
  rw [List.append_nil] at h
  rw [h]
  rfl

theorem deviceInfoLoads_dumps (x : DeviceInfoFields) :
    deviceInfoLoads (deviceInfoDumps x) = some x := by
  unfold deviceInfoDumps deviceInfoLoads
  simp only [List.append_assoc]
  rw [pbParse_vintField 1 _ (by norm_num), pbParse_vintField 2 _ (by norm_num),
    pbParse_lenField 3 _ (by norm_num), pbParse_lenField 4 _ (by norm_num),
    pbParse_lenField 5 _ (by norm_num), pbParse_lenField 6 _ (by norm_num),
    pbParse_vintField_nil 7 _ (by norm_num)]
  simp [pbVintAt, pbBytesAt, pbLast, Option.bind]

theorem getFileLoads_dumps (fn : List Nat) :
    getFileLoads (getFileDumps fn) = some fn := by
  unfold getFileDumps getFileLoads
  rw [pbParse_lenField_nil 1 _ (by norm_num)]
  simp [pbBytesAt, pbLast, Option.bind]

theorem getFileRespLoads_dumps (e : Bool) :
    getFileRespLoads (getFileRespDumps e) = some e := by
  cases e <;> rfl

theorem fileInfoLoads_dumps (fn : List Nat) (sz : Int) :
    fileInfoLoads (fileInfoDumps fn sz) = some (fn, sz) := by
  unfold fileInfoDumps fileInfoLoads
  rw [pbParse_lenField 1 _ (by norm_num), pbParse_vintField_nil 2 _ (by norm_num)]
  simp [pbBytesAt, pbVintAt, pbLast, Option.bind, zigzagDec_enc]

/-- The header-plus-length prefix of a frame body (everything the CRC
covers). -/
def bodyCore (hdr : Nat) (payload : List Nat) : List Nat :=
  hdr :: ([(payload.length + 5) / 256, (payload.length + 5) % 256] ++ payload)

theorem frameBody_eq (hdr : Nat) (payload : List Nat) :
    frameBody hdr payload = bodyCore hdr payload ++
      [crc_hqx (bodyCore hdr payload) 0xFFFF / 256,
       crc_hqx (bodyCore hdr payload) 0xFFFF % 256] := rfl

theorem bodyCore_length (hdr : Nat) (payload : List Nat) :
    (bodyCore hdr payload).length = payload.length + 3 := by
  simp [bodyCore]

/-- What `from_bytes` does to a well-formed frame after the framing, CRC and
length checks pass: header split, ACK/non-ACK shape, oid lookup, dispatch. -/
def afterFrame (hdr : Nat) (payload : List Nat) : Except DecodeErr Msg :=
  match CmdType.fromVal (hdr / 64) with
  | none => .error .badCmdType
  | some cmd =>
      match TransType.fromVal (hdr / 16 % 4) with
      | none => .error .badTransType
      | some tr =>
          match tr with
          | .Ack =>
              if payload.length ≠ 0 then .error .ackBadLen
              else dispatch cmd .Ack .Invalid (hdr % 16) []
          | _ =>
              if payload.length < 2 then .error .nonAckTooShort
              else
                match Oid.fromVal (fromBytesBE (payload.take 2)) with
                | none => .error .badOid
                | some oid => dispatch cmd tr oid (hdr % 16) (payload.drop 2)

theorem from_bytes_frameFor (hdr : Nat) (payload : List Nat)
    (hL : payload.length + 5 < 65536) :
    from_bytes (frameFor hdr payload) = afterFrame hdr payload := by
  rw [frameFor_eq_body]
  unfold from_bytes
  rw [if_neg (by simp)]
  rw [if_neg (fun hcc => hcc (getLastD_cons_concat _ _ _))]
  rw [show (((0x7E : Nat) :: (escape (frameBody hdr payload) ++ [0x7F])).drop
      1).dropLast = escape (frameBody hdr payload) by
    rw [List.drop_succ_cons, List.drop_zero, List.dropLast_concat]]
  rw [unescape_escape]
  simp only []
  rw [frameBody_eq]
  set B := bodyCore hdr payload with hB
  set C := crc_hqx B 0xFFFF with hC
  have hBlen : B.length = payload.length + 3 := bodyCore_length hdr payload
  have hlen : (B ++ [C / 256, C % 256]).length = payload.length + 5 := by
    simp [hBlen]
  rw [hlen]
  have hdropcrc : (B ++ [C / 256, C % 256]).drop (payload.length + 5 - 2) =
      [C / 256, C % 256] := by
    rw [show payload.length + 5 - 2 = B.length by omega]
    exact List.drop_left _ _
  have htakebody : (B ++ [C / 256, C % 256]).take (payload.length + 5 - 2) =
      B := by
    rw [show payload.length + 5 - 2 = B.length by omega]
    exact List.take_left _ _
  rw [hdropcrc, htakebody, fromBytesBE_pair, ← hC]
  rw [if_neg (show ¬(C / 256 * 256 + C % 256 ≠ C) from fun hcc => hcc (by omega))]
  rw [if_neg (show ¬(payload.length + 5 < 5) by omega)]
  have hlf : fromBytesBE (List.take 2 (List.drop 1 (B ++ [C / 256, C % 256]))) =
      payload.length + 5 := by
    rw [hB]
    show fromBytesBE (List.take 2 (List.drop 1
      ((hdr :: ([(payload.length + 5) / 256, (payload.length + 5) % 256] ++
        payload)) ++ [C / 256, C % 256]))) = payload.length + 5
    rw [List.cons_append, List.drop_succ_cons, List.drop_zero]
    rw [show ([(payload.length + 5) / 256, (payload.length + 5) % 256] ++
        payload) ++ [C / 256, C % 256] =
      (payload.length + 5) / 256 :: (payload.length + 5) % 256 ::
        (payload ++ [C / 256, C % 256]) by simp]
    rw [show List.take 2 ((payload.length + 5) / 256 ::
        (payload.length + 5) % 256 :: (payload ++ [C / 256, C % 256])) =
      [(payload.length + 5) / 256, (payload.length + 5) % 256] from rfl]
    rw [fromBytesBE_pair]
    omega
  rw [hlf]
  rw [if_neg (fun hcc => hcc rfl)]
  have hhd : (B ++ [C / 256, C % 256]).headD 0 = hdr := by rw [hB]; rfl
  rw [hhd]
  unfold afterFrame
  cases CmdType.fromVal (hdr / 64) with
  | none => rfl
  | some cmd =>
      cases TransType.fromVal (hdr / 16 % 4) with
      | none => rfl
      | some tr =>
          have hsplit3 : List.drop 3 (B ++ [C / 256, C % 256]) =
              payload ++ [C / 256, C % 256] := by
            rw [hB]
            show List.drop 3 ((hdr :: ([(payload.length + 5) / 256,
              (payload.length + 5) % 256] ++ payload)) ++
                [C / 256, C % 256]) = _
            simp
          cases tr with
          | Ack =>
              simp only []
              by_cases hp : payload.length = 0
              · rw [if_neg (show ¬(payload.length + 5 ≠ 5) from
                  fun hcc => hcc (by omega))]
                rw [if_neg (fun (hcc : payload.length ≠ 0) => hcc hp)]
              · rw [if_pos (show payload.length + 5 ≠ 5 by omega)]
                rw [if_pos hp]
          | Default =>
              simp only []
              by_cases hp : payload.length < 2
              · rw [if_pos (show payload.length + 5 < 7 by omega), if_pos hp]
              · rw [if_neg (show ¬(payload.length + 5 < 7) by omega),
                  if_neg hp]
                have hoid : List.take 2 (List.drop 3 (B ++ [C / 256, C % 256]))
                    = payload.take 2 := by
                  rw [hsplit3, List.take_append_eq_append_take,
                    show 2 - payload.length = 0 by omega]
                  simp
                have hpay : List.take (payload.length + 5 - 7)
                    (List.drop 5 (B ++ [C / 256, C % 256])) = payload.drop 2 := by
                  rw [show (5 : Nat) = 3 + 2 by norm_num, ← List.drop_drop,
                    hsplit3, List.drop_append_eq_append_drop,
                    show 2 - payload.length = 0 by omega, List.drop_zero]
                  rw [show payload.length + 5 - 7 = (payload.drop 2).length by
                    simp]
                  exact List.take_left _ _
                rw [hoid, hpay]
          | Response =>
              simp only []
              by_cases hp : payload.length < 2
              · rw [if_pos (show payload.length + 5 < 7 by omega), if_pos hp]
              · rw [if_neg (show ¬(payload.length + 5 < 7) by omega),
                  if_neg hp]
                have hoid : List.take 2 (List.drop 3 (B ++ [C / 256, C % 256]))
                    = payload.take 2 := by
                  rw [hsplit3, List.take_append_eq_append_take,
                    show 2 - payload.length = 0 by omega]
                  simp
                have hpay : List.take (payload.length + 5 - 7)
                    (List.drop 5 (B ++ [C / 256, C % 256])) = payload.drop 2 := by
                  rw [show (5 : Nat) = 3 + 2 by norm_num, ← List.drop_drop,
                    hsplit3, List.drop_append_eq_append_drop,
                    show 2 - payload.length = 0 by omega, List.drop_zero]
                  rw [show payload.length + 5 - 7 = (payload.drop 2).length by
                    simp]
                  exact List.take_left _ _
                rw [hoid, hpay]
theorem hdrByte_zero (m : Msg) :
    hdrByte m 0 = m.cmdType.val * 64 + m.transType.val * 16 + m.sid % 16 := rfl

/-- C4: for every registered message variant with a valid sid (0..15) whose
encoding succeeds, `Message.from_bytes(m.to_bytes())` returns a message equal
to `m`: same class, sid, cmd_type, trans_type, oid and payload fields. -/
theorem claim4_encode_decode_roundtrip (m : Msg) (hsid : m.sid < 16)
    (f : List Nat) (h : to_bytes m 0 = .ok f) :
    from_bytes f = .ok m := by
  obtain ⟨hlen, hf⟩ := to_bytes_shape m 0 f h
  subst hf
  rw [from_bytes_frameFor _ _ hlen]
  rw [hdrByte_zero]
  cases m with
  | getAck s =>
      simp only [Msg.cmdType, Msg.transType, Msg.sid, CmdType.val,
        TransType.val, payloadBytes] at hsid ⊢
      unfold afterFrame
      rw [show (2 * 64 + 2 * 16 + s % 16) / 64 = 2 by omega,
          show (2 * 64 + 2 * 16 + s % 16) / 16 % 4 = 2 by omega,
          show (2 * 64 + 2 * 16 + s % 16) % 16 = s by omega]
      simp only [CmdType.fromVal, TransType.fromVal]
      rw [if_neg (by simp)]
      rfl
  | pushAck s =>
      simp only [Msg.cmdType, Msg.transType, Msg.sid, CmdType.val,
        TransType.val, payloadBytes] at hsid ⊢
      unfold afterFrame
      rw [show (0 * 64 + 2 * 16 + s % 16) / 64 = 0 by omega,
          show (0 * 64 + 2 * 16 + s % 16) / 16 % 4 = 2 by omega,
          show (0 * 64 + 2 * 16 + s % 16) % 16 = s by omega]
      simp only [CmdType.fromVal, TransType.fromVal]
      rw [if_neg (by simp)]
      rfl
  | getDeviceInfoRequest s =>
      simp only [Msg.cmdType, Msg.transType, Msg.sid, CmdType.val,
        TransType.val, payloadBytes] at hsid ⊢
      unfold afterFrame
      rw [show (0 * 64 + 0 * 16 + s % 16) / 64 = 0 by omega,
          show (0 * 64 + 0 * 16 + s % 16) / 16 % 4 = 0 by omega,
          show (0 * 64 + 0 * 16 + s % 16) % 16 = s by omega]
      simp only [CmdType.fromVal, TransType.fromVal]
      rw [if_neg (by simp)]
      rfl
  | getFileStatus s =>
      simp only [Msg.cmdType, Msg.transType, Msg.sid, CmdType.val,
        TransType.val, payloadBytes] at hsid ⊢
      unfold afterFrame
      rw [show (0 * 64 + 0 * 16 + s % 16) / 64 = 0 by omega,
          show (0 * 64 + 0 * 16 + s % 16) / 16 % 4 = 0 by omega,
          show (0 * 64 + 0 * 16 + s % 16) % 16 = s by omega]
      simp only [CmdType.fromVal, TransType.fromVal]
      rw [if_neg (by simp)]
      rfl
  | getFileStatusResponse s =>
      simp only [Msg.cmdType, Msg.transType, Msg.sid, CmdType.val,
        TransType.val, payloadBytes] at hsid ⊢
      unfold afterFrame
      rw [show (0 * 64 + 1 * 16 + s % 16) / 64 = 0 by omega,
          show (0 * 64 + 1 * 16 + s % 16) / 16 % 4 = 1 by omega,
          show (0 * 64 + 1 * 16 + s % 16) % 16 = s by omega]
      simp only [CmdType.fromVal, TransType.fromVal]
      rw [if_neg (by simp)]
      rfl
  | getDeviceInfoResponse s dt fts hw sw sn pv mtu =>
      simp only [Msg.cmdType, Msg.transType, Msg.sid, CmdType.val,
        TransType.val, payloadBytes] at hsid ⊢
      unfold afterFrame
      rw [show (0 * 64 + 1 * 16 + s % 16) / 64 = 0 by omega,
          show (0 * 64 + 1 * 16 + s % 16) / 16 % 4 = 1 by omega,
          show (0 * 64 + 1 * 16 + s % 16) % 16 = s by omega]
      simp only [CmdType.fromVal, TransType.fromVal]
      rw [if_neg (by simp)]
      rw [show List.take 2 ([0, 1] ++ deviceInfoDumps
        ⟨dt.val, fts.val, hw, sw, sn, pv, mtu⟩) = [0, 1] from rfl]
      rw [show List.drop 2 ([0, 1] ++ deviceInfoDumps
          ⟨dt.val, fts.val, hw, sw, sn, pv, mtu⟩) =
        deviceInfoDumps ⟨dt.val, fts.val, hw, sw, sn, pv, mtu⟩ from rfl]
      rw [show Oid.fromVal (fromBytesBE [0, 1]) = some Oid.GetDeviceInfo
        from rfl]
      simp only []
      unfold dispatch
      rw [deviceInfoLoads_dumps]
      simp only []
      rw [show DevType.fromVal dt.val = some dt by cases dt <;> rfl,
          show FileTransSize.fromVal fts.val = some fts by cases fts <;> rfl]
  | getFile s fn =>
      simp only [Msg.cmdType, Msg.transType, Msg.sid, CmdType.val,
        TransType.val, payloadBytes] at hsid ⊢
      unfold afterFrame
      rw [show (0 * 64 + 0 * 16 + s % 16) / 64 = 0 by omega,
          show (0 * 64 + 0 * 16 + s % 16) / 16 % 4 = 0 by omega,
          show (0 * 64 + 0 * 16 + s % 16) % 16 = s by omega]
      simp only [CmdType.fromVal, TransType.fromVal]
      rw [if_neg (by simp)]
      rw [show List.take 2 ([0, 41] ++ getFileDumps fn) = [0, 41] from rfl]
      rw [show List.drop 2 ([0, 41] ++ getFileDumps fn) = getFileDumps fn
        from rfl]
      rw [show Oid.fromVal (fromBytesBE [0, 41]) = some Oid.GetFile from rfl]
      simp only []
      unfold dispatch
      rw [getFileLoads_dumps]
  | getFileResponse s e =>
      simp only [Msg.cmdType, Msg.transType, Msg.sid, CmdType.val,
        TransType.val, payloadBytes] at hsid ⊢
      unfold afterFrame
      rw [show (0 * 64 + 1 * 16 + s % 16) / 64 = 0 by omega,
          show (0 * 64 + 1 * 16 + s % 16) / 16 % 4 = 1 by omega,
          show (0 * 64 + 1 * 16 + s % 16) % 16 = s by omega]
      simp only [CmdType.fromVal, TransType.fromVal]
      rw [if_neg (by simp)]
      rw [show List.take 2 ([0, 41] ++ getFileRespDumps e) = [0, 41] from rfl]
      rw [show List.drop 2 ([0, 41] ++ getFileRespDumps e) = getFileRespDumps e
        from rfl]
      rw [show Oid.fromVal (fromBytesBE [0, 41]) = some Oid.GetFile from rfl]
      simp only []
      unfold dispatch
      rw [getFileRespLoads_dumps]
  | fileInfo s fn sz =>
      simp only [Msg.cmdType, Msg.transType, Msg.sid, CmdType.val,
        TransType.val, payloadBytes] at hsid ⊢
      unfold afterFrame
      rw [show (2 * 64 + 0 * 16 + s % 16) / 64 = 2 by omega,
          show (2 * 64 + 0 * 16 + s % 16) / 16 % 4 = 0 by omega,
          show (2 * 64 + 0 * 16 + s % 16) % 16 = s by omega]
      simp only [CmdType.fromVal, TransType.fromVal]
      rw [if_neg (by simp)]
      rw [show List.take 2 ([0, 43] ++ fileInfoDumps fn sz) = [0, 43] from rfl]
      rw [show List.drop 2 ([0, 43] ++ fileInfoDumps fn sz) =
        fileInfoDumps fn sz from rfl]
      rw [show Oid.fromVal (fromBytesBE [0, 43]) = some Oid.PostFileInfo
        from rfl]
      simp only []
      unfold dispatch
      rw [fileInfoLoads_dumps]
  | receiveFile s sq fl d =>
      simp only [Msg.cmdType, Msg.transType, Msg.sid, CmdType.val,
        TransType.val, payloadBytes] at hsid ⊢
      unfold afterFrame
      rw [show (2 * 64 + 0 * 16 + s % 16) / 64 = 2 by omega,
          show (2 * 64 + 0 * 16 + s % 16) / 16 % 4 = 0 by omega,
          show (2 * 64 + 0 * 16 + s % 16) % 16 = s by omega]
      simp only [CmdType.fromVal, TransType.fromVal]
      rw [if_neg (by simp)]
      rw [show List.take 2 ([0, 44] ++ (sq :: fl.val :: d)) = [0, 44] from rfl]
      rw [show List.drop 2 ([0, 44] ++ (sq :: fl.val :: d)) =
        sq :: fl.val :: d from rfl]
      rw [show Oid.fromVal (fromBytesBE [0, 44]) = some Oid.ReceiveFile
        from rfl]
      simp only []
      unfold dispatch
      simp only []
      rw [show ReceiveFileFlag.fromVal fl.val = some fl by cases fl <;> rfl]

/-- C4 witness: the GetFile round trip of the repository's own test. -/
theorem claim4_encode_decode_roundtrip_witness :
    from_bytes [126, 1, 0, 13, 0, 41, 10, 4, 116, 101, 115, 116, 131, 77, 127]
      = .ok (.getFile 1 [116, 101, 115, 116]) :=
  claim4_encode_decode_roundtrip (.getFile 1 [116, 101, 115, 116])
    (by norm_num [Msg.sid])
    [126, 1, 0, 13, 0, 41, 10, 4, 116, 101, 115, 116, 131, 77, 127] rfl
theorem read_fileInfo (seqv : Nat) (buf : List Nat) (s : Nat) (fn : List Nat)
    (sz : Nat) (rest : List Msg) :
    PacketStream.read ⟨seqv, buf, .fileInfo s fn sz :: rest⟩ =
      (if s ≠ seqv then
        ((.error (.sequenceSkew seqv s) : Except ReadErr (Msg × List Nat)),
          (⟨seqv, buf, rest⟩ : PacketStream))
       else
        match to_bytes (.getAck s) seqv with
        | .error e => (.error (.encodeError e), ⟨seqv, buf, rest⟩)
        | .ok frame =>
            (.ok (.fileInfo s fn sz, frame), ⟨(seqv + 1) % 16, buf, rest⟩)) := rfl

theorem dlLoop_cons (fi : Msg) (seqv : Nat) (m : Msg) (rest : List Msg)
    (acc : List Nat) :
    dlLoop fi seqv (m :: rest) acc =
      (if m.sid ≠ seqv then .error (.sequenceSkew seqv m.sid)
       else match m.ack with
       | none => .error .ackKeyError
       | some a =>
           match to_bytes a seqv with
           | .error e => .error (.encodeError e)
           | .ok _ =>
               match m with
               | .receiveFile _ _ flag d =>
                   let acc2 := acc ++ d
                   match fi with
                   | .fileInfo _ _ _ =>
                       if flag = .Last ∨ flag = .Single then
                         .ok (acc2, (seqv + 1) % 16, rest)
                       else dlLoop fi ((seqv + 1) % 16) rest acc2
                   | _ => .error .attrError
               | _ => .error .attrError) := rfl

theorem dlLoop_fileInfo_congr (s : Nat) (fn fn' : List Nat) (sz sz' : Nat)
    (msgs : List Msg) :
    ∀ (seqv : Nat) (acc : List Nat),
    dlLoop (.fileInfo s fn sz) seqv msgs acc =
    dlLoop (.fileInfo s fn' sz') seqv msgs acc := by
  induction msgs with
  | nil => intro _ _; rfl
  | cons m rest ih =>
      intro seqv acc
      rw [dlLoop_cons, dlLoop_cons]
      split
      · rfl
      · split
        · rfl
        · split
          · rfl
          · cases m with
            | receiveFile s2 sq fl d =>
                simp only []
                split
                · rfl
                · exact ih _ _
            | getAck s2 => rfl
            | pushAck s2 => rfl
            | getDeviceInfoRequest s2 => rfl
            | getDeviceInfoResponse s2 a b c d e f g => rfl
            | getFile s2 a => rfl
            | getFileResponse s2 a => rfl
            | getFileStatus s2 => rfl
            | getFileStatusResponse s2 => rfl
            | fileInfo s2 a b => rfl
theorem download_file_fileInfo_congr (filename : List Nat)
    (gets : PacketStream) (sd : Option (List Nat)) (seqv : Nat)
    (buf : List Nat) (rest : List Msg) (s : Nat) (fn fn' : List Nat)
    (sz sz' : Nat) :
    download_file filename gets ⟨seqv, buf, .fileInfo s fn sz :: rest⟩ sd =
    download_file filename gets ⟨seqv, buf, .fileInfo s fn' sz' :: rest⟩ sd := by
  unfold download_file
  cases h1 : to_bytes (Msg.getFile 0 filename) gets.seq with
  | error e => rfl
  | ok u =>
      rcases h2 : PacketStream.read gets with ⟨e | ⟨resp, fr⟩, g2⟩
      · rfl
      · cases resp with
        | getFileResponse s0 exist =>
            simp only []
            cases exist with
            | false => rfl
            | true =>
                rw [if_neg (by simp), if_neg (by simp)]
                rw [read_fileInfo, read_fileInfo]
                by_cases hss : s ≠ seqv
                · rw [if_pos hss, if_pos hss]
                · rw [if_neg hss, if_neg hss]
                  cases hta : to_bytes (Msg.getAck s) seqv with
                  | error e => rfl
                  | ok frame =>
                      simp only []
                      rw [dlLoop_fileInfo_congr s fn fn' sz sz' rest]
        | getAck s0 => rfl
        | pushAck s0 => rfl
        | getDeviceInfoRequest s0 => rfl
        | getDeviceInfoResponse s0 a b c d e f g => rfl
        | getFile s0 a => rfl
        | getFileStatus s0 => rfl
        | getFileStatusResponse s0 => rfl
        | fileInfo s0 a b => rfl
        | receiveFile s0 a b c => rfl
/-- C1 (corrected): `download_file` performs no size accounting at all: its
entire outcome (result and filesystem effects) is unchanged when the `size`
field of the `FileInfo` message at the head of the PUSH queue is replaced by
an arbitrary other value, so no `Overrun` or `SizeMismatch` failure exists
and the returned byte string's length need not equal `FileInfo.size`. -/
theorem claim1_no_size_accounting (filename : List Nat) (gets : PacketStream)
    (sd : Option (List Nat)) (seqv : Nat) (buf : List Nat) (rest : List Msg)
    (s : Nat) (fn : List Nat) (sz sz' : Nat) :
    download_file filename gets ⟨seqv, buf, .fileInfo s fn sz :: rest⟩ sd =
    download_file filename gets ⟨seqv, buf, .fileInfo s fn sz' :: rest⟩ sd :=
  download_file_fileInfo_congr filename gets sd seqv buf rest s fn fn sz sz'

/-- C1 counterexample: a download whose `FileInfo.size` is 7 but whose single
fragment carries 3 bytes terminates normally with the 3 bytes and no error,
refuting the claimed size law. -/
theorem claim1_counterexample :
    (download_file [97] ⟨0, [], [.getFileResponse 0 true]⟩
        ⟨0, [], [.fileInfo 0 [97] 7, .receiveFile 1 0 .Single [97, 98, 99]]⟩
        none).1 = .ok (some [97, 98, 99]) ∧
      ([97, 98, 99] : List Nat).length ≠ 7 :=
  ⟨rfl, by decide⟩

/-- C7 (corrected): `download_file` never compares the `FileInfo` filename
with the requested one: its entire outcome is unchanged when the `filename`
field of the `FileInfo` message at the head of the PUSH queue is replaced by
an arbitrary other value, so no `FileNameSkew` failure exists and a download
can complete against a `FileInfo` whose filename differs from the request. -/
theorem claim7_no_filename_check (filename : List Nat) (gets : PacketStream)
    (sd : Option (List Nat)) (seqv : Nat) (buf : List Nat) (rest : List Msg)
    (s : Nat) (fn fn' : List Nat) (sz : Nat) :
    download_file filename gets ⟨seqv, buf, .fileInfo s fn sz :: rest⟩ sd =
    download_file filename gets ⟨seqv, buf, .fileInfo s fn' sz :: rest⟩ sd :=
  download_file_fileInfo_congr filename gets sd seqv buf rest s fn fn' sz sz

/-- C7 counterexample: requesting file "a" while the device's `FileInfo`
names "b" still completes successfully, refuting the claimed mismatch
failure. -/
theorem claim7_counterexample :
    (download_file [97] ⟨0, [], [.getFileResponse 0 true]⟩
        ⟨0, [], [.fileInfo 0 [98] 2, .receiveFile 1 0 .Single [10, 20]]⟩
        none).1 = .ok (some [10, 20]) ∧ ([98] : List Nat) ≠ [97] :=
  ⟨rfl, by decide⟩

/-- C9 (corrected): persistence is a direct truncating write to
`save_dir/filename`, not a write-to-temporary-then-rename: the filesystem
operations of `download_file` are empty unless the download succeeds with a
`save_dir`, in which case they are exactly an open of the final path followed
by one write of the assembled bytes — no rename is ever performed. -/
theorem claim9_direct_write_no_rename (filename : List Nat)
    (gets pushs : PacketStream) (sd : Option (List Nat)) :
    (download_file filename gets pushs sd).2 =
      match (download_file filename gets pushs sd).1, sd with
      | .ok (some bytes), some dir =>
          [FsOp.openWrite (pathJoin dir filename),
           FsOp.writeBytes (pathJoin dir filename) bytes]
      | _, _ => [] := by
  unfold download_file
  cases h1 : to_bytes (Msg.getFile 0 filename) gets.seq with
  | error e => cases sd <;> rfl
  | ok u =>
      rcases h2 : PacketStream.read gets with ⟨e | ⟨resp, fr⟩, g2⟩
      · cases sd <;> rfl
      · cases resp with
        | getFileResponse s0 exist =>
            cases exist with
            | false => cases sd <;> rfl
            | true =>
                rcases h3 : PacketStream.read pushs with ⟨e | ⟨fi, fr2⟩, p1⟩
                · cases sd <;> rfl
                · simp only []
                  cases h4 : dlLoop fi p1.seq p1.rx_messages [] with
                  | error e => cases sd <;> rfl
                  | ok t =>
                      obtain ⟨bytes, v, rem⟩ := t
                      cases sd <;> rfl
        | getAck s0 => cases sd <;> rfl
        | pushAck s0 => cases sd <;> rfl
        | getDeviceInfoRequest s0 => cases sd <;> rfl
        | getDeviceInfoResponse s0 a b c d e f g => cases sd <;> rfl
        | getFile s0 a => cases sd <;> rfl
        | getFileStatus s0 => cases sd <;> rfl
        | getFileStatusResponse s0 => cases sd <;> rfl
        | fileInfo s0 a b => cases sd <;> rfl
        | receiveFile s0 a b c => cases sd <;> rfl

/-- C9 counterexample: a successful saved download opens and writes the final
path `save_dir/filename` directly; the operation list contains no temporary
file and no rename. -/
theorem claim9_counterexample :
    (download_file [97] ⟨0, [], [.getFileResponse 0 true]⟩
        ⟨0, [], [.fileInfo 0 [97] 2, .receiveFile 1 0 .Single [1, 2]]⟩
        (some [100])).2 =
      [.openWrite (pathJoin [100] [97]),
       .writeBytes (pathJoin [100] [97]) [1, 2]] ∧
    ∀ a b, FsOp.rename a b ∉
      (download_file [97] ⟨0, [], [.getFileResponse 0 true]⟩
        ⟨0, [], [.fileInfo 0 [97] 2, .receiveFile 1 0 .Single [1, 2]]⟩
        (some [100])).2 := by
  refine ⟨rfl, ?_⟩
  intro a b h
  rw [show (download_file [97] ⟨0, [], [.getFileResponse 0 true]⟩
      ⟨0, [], [.fileInfo 0 [97] 2, .receiveFile 1 0 .Single [1, 2]]⟩
      (some [100])).2 = [.openWrite (pathJoin [100] [97]),
        .writeBytes (pathJoin [100] [97]) [1, 2]] from rfl] at h
  simp at h
end BB16





